import Mathlib

/-!
Verification of the f5-declarative-onboarding reconciliation pipeline.

We shallowly embed the JavaScript sources as Lean functions over a JSON-like
value type.  JavaScript objects are modelled as association lists in insertion
order, and the JavaScript notions of truthiness, typeof, strict equality and
Object.assign are translated explicitly.  Statements about deep equality use a
key-order-insensitive structural comparison, matching the notion of difference
used by the deep-diff library that diffHandler.js relies on.
-/

namespace F5DO

/-- Model of a JavaScript runtime value as produced by JSON parsing plus the
undefined value, which appears as the result of reading a missing property. -/
inductive JsVal where
  | str (s : String)
  | num (n : Int)
  | bool (b : Bool)
  | null
  | undef
  | arr (elems : List JsVal)
  | obj (fields : List (String × JsVal))

/-- Association-list lookup of the first binding of a key, mirroring property
access on a JavaScript object (whose keys are unique). -/
def lookupField : List (String × JsVal) → String → Option JsVal
  | [], _ => none
  | (k, v) :: rest, key => if k = key then some v else lookupField rest key

/-- Property read on an object, none when absent or when the value is not an
object. -/
def JsVal.get : JsVal → String → Option JsVal
  | JsVal.obj fs, k => lookupField fs k
  | _, _ => none

/-- JavaScript property read: a missing property reads as undefined. -/
def JsVal.index (v : JsVal) (k : String) : JsVal := (v.get k).getD JsVal.undef

/-- Path read through nested objects. -/
def JsVal.getPath : JsVal → List String → Option JsVal
  | v, [] => some v
  | v, k :: rest =>
    match v.get k with
    | some w => w.getPath rest
    | none => none

/-- Keys of an object in insertion order, the model of Object.keys. -/
def keysOf : JsVal → List String
  | JsVal.obj fs => fs.map Prod.fst
  | _ => []

/-- JavaScript truthiness. -/
def truthy : JsVal → Bool
  | JsVal.str s => ¬ (s = "")
  | JsVal.num n => ¬ (n = 0)
  | JsVal.bool b => b
  | JsVal.null => false
  | JsVal.undef => false
  | JsVal.arr _ => true
  | JsVal.obj _ => true

/-- The typeof operator.  Arrays and null both have typeof object. -/
def jsTypeof : JsVal → String
  | JsVal.str _ => "string"
  | JsVal.num _ => "number"
  | JsVal.bool _ => "boolean"
  | JsVal.null => "object"
  | JsVal.undef => "undefined"
  | JsVal.arr _ => "object"
  | JsVal.obj _ => "object"

/-- Array.isArray. -/
def isArray : JsVal → Bool
  | JsVal.arr _ => true
  | _ => false

/-- Strict equality of a value against a string literal, as in the frequent
JavaScript pattern of comparing a property with a string constant. -/
def jsStrictEqStr (v : JsVal) (s : String) : Bool :=
  match v with
  | JsVal.str t => t = s
  | _ => false

/-- Strict equality between two values.  Primitives compare by value; two
distinct objects or arrays are never strictly equal (reference equality), and
within this embedding the compared objects always are distinct allocations. -/
def jsStrictEq (a b : JsVal) : Bool :=
  match a, b with
  | JsVal.str x, JsVal.str y => x = y
  | JsVal.num x, JsVal.num y => x = y
  | JsVal.bool x, JsVal.bool y => x = y
  | JsVal.null, JsVal.null => true
  | JsVal.undef, JsVal.undef => true
  | _, _ => false

/-- String coercion of a value used as an object key or in a regular
expression test (the approximation for composite values is irrelevant: all
theorems use string-valued inputs at such places). -/
def asKeyString : JsVal → String
  | JsVal.str s => s
  | JsVal.num n => toString n
  | JsVal.bool b => if b then "true" else "false"
  | JsVal.null => "null"
  | JsVal.undef => "undefined"
  | JsVal.arr _ => ""
  | JsVal.obj _ => "[object Object]"

/-- Assignment of a property on an object: replaces the binding in place when
the key exists, otherwise appends, matching JavaScript key ordering.  On a
non-object the model is the identity; the sources only reach that case where
strict-mode JavaScript would throw, and every theorem stays clear of it. -/
def setField : List (String × JsVal) → String → JsVal → List (String × JsVal)
  | [], key, v => [(key, v)]
  | (k, w) :: rest, key, v =>
    if k = key then (k, v) :: rest else (k, w) :: setField rest key v

/-- Property assignment, see setField. -/
def JsVal.set : JsVal → String → JsVal → JsVal
  | JsVal.obj fs, k, v => JsVal.obj (setField fs k v)
  | other, _, _ => other

/-- The delete operator on an object property. -/
def JsVal.erase : JsVal → String → JsVal
  | JsVal.obj fs, k => JsVal.obj (fs.filter (fun kv => ¬ (kv.1 = k)))
  | other, _ => other

/-- Read-modify-write of one property. -/
def JsVal.modify (o : JsVal) (k : String) (f : JsVal → JsVal) : JsVal :=
  o.set k (f (o.index k))

/-- Object.assign onto a fresh empty target.  An object is shallow-copied, an
array becomes an object keyed by the decimal indices, and any primitive
produces an empty object.  (Spreading of string characters is not modelled;
no theorem reaches that case.) -/
def objAssignToEmpty : JsVal → JsVal
  | JsVal.obj fs => JsVal.obj fs
  | JsVal.arr es => JsVal.obj ((es.enum).map (fun p => (toString p.1, p.2)))
  | _ => JsVal.obj []

/-- Object.assign merging the fields of the source object into the target
object, in source field order. -/
def objMergeInto (target source : JsVal) : JsVal :=
  match source with
  | JsVal.obj fs => fs.foldl (fun acc kv => acc.set kv.1 kv.2) target
  | _ => target

mutual
/-- Whether a value is free of the undefined value; JSON round-trips (used by
diffHandler.js for cloning) are the identity exactly on such values. -/
def jsonClean : JsVal → Bool
  | JsVal.str _ => true
  | JsVal.num _ => true
  | JsVal.bool _ => true
  | JsVal.null => true
  | JsVal.undef => false
  | JsVal.arr es => jsonCleanList es
  | JsVal.obj fs => jsonCleanFields fs

/-- jsonClean on array elements. -/
def jsonCleanList : List JsVal → Bool
  | [] => true
  | v :: rest => jsonClean v && jsonCleanList rest

/-- jsonClean on object fields. -/
def jsonCleanFields : List (String × JsVal) → Bool
  | [] => true
  | (_, v) :: rest => jsonClean v && jsonCleanFields rest
end

mutual
/-- Deep structural equality with key-order-insensitive object comparison:
exactly the configurations in which the deep-diff library reports no
difference between two JSON values. -/
def deepEqual : JsVal → JsVal → Bool
  | JsVal.str a, JsVal.str b => a = b
  | JsVal.num a, JsVal.num b => a = b
  | JsVal.bool a, JsVal.bool b => a = b
  | JsVal.null, JsVal.null => true
  | JsVal.undef, JsVal.undef => true
  | JsVal.arr xs, JsVal.arr ys => deepEqualList xs ys
  | JsVal.obj fs, JsVal.obj gs =>
    deepEqualFields fs gs && gs.all (fun kv => (lookupField fs kv.1).isSome)
  | _, _ => false

/-- Pointwise deep equality of array elements. -/
def deepEqualList : List JsVal → List JsVal → Bool
  | [], [] => true
  | x :: xs, y :: ys => deepEqual x y && deepEqualList xs ys
  | _, _ => false

/-- Every field of the first list is matched by a deep-equal binding in the
second object. -/
def deepEqualFields : List (String × JsVal) → List (String × JsVal) → Bool
  | [], _ => true
  | (k, v) :: rest, gs =>
    (match lookupField gs k with
     | some w => deepEqual v w
     | none => false) && deepEqualFields rest gs
end

/-- Deep equality of optional values, where both being absent counts as equal:
the criterion under which deep-diff reports no difference at a key that may be
missing on either side. -/
def optionDeepEqual : Option JsVal → Option JsVal → Bool
  | some a, some b => deepEqual a b
  | none, none => true
  | _, _ => false

/-!
Embedding of src/nodejs/diffHandler.js.

DiffHandler.process first JSON-clones both declarations (the identity on
jsonClean values, which is how the two inputs are modelled here), seeds the
result with the non-truth classes of the desired Common section, lets the
deep-diff library apply every difference whose second path segment is a class
of truth onto the clone of the current declaration, and finally copies each
marked class subtree from the converged clone into the result.
-/

/-- Keys of the left object in order followed by the keys only present in the
right object, the order in which deep-diff visits the union of keys. -/
def unionKeys (fs gs : List (String × JsVal)) : List String :=
  let lhs := (fs.map Prod.fst).dedup
  lhs ++ ((gs.map Prod.fst).dedup).filter (fun k => ¬ lhs.contains k)

/-- Second path segments, with multiplicity per top-level key, of the
differences deep-diff reports between the two declarations.  A difference has
a second path segment exactly when both declarations hold objects at the same
top-level key and those objects disagree at some second-level key; every other
difference is reported at a path of length at most one and is ignored by the
callback in diffHandler.js. -/
def diffSecondSegments (fromDecl toDecl : JsVal) : List String :=
  match fromDecl, toDecl with
  | JsVal.obj ffs, JsVal.obj tfs =>
    (unionKeys ffs tfs).foldr
      (fun x acc =>
        (match lookupField ffs x, lookupField tfs x with
         | some (JsVal.obj fX), some (JsVal.obj tX) =>
           (unionKeys fX tX).filter
             (fun k => ¬ optionDeepEqual (lookupField fX k) (lookupField tX k))
         | _, _ => []) ++ acc)
      []
  | _, _ => []

/-- Model of the observableDiff callback of DiffHandler.process: record, once
each and in first-difference order, the second path segments that name a class
of truth.  (Applying the difference onto the working copy of the current
declaration is modelled at the use site: once every difference below a class
of truth is applied, the subtree of the working copy at that class has
converged to the desired subtree.) -/
def pushNewTruth (classesOfTruth : List String) (acc : List String) (k : String) :
    List String :=
  if classesOfTruth.contains k && ¬ acc.contains k then acc ++ [k] else acc

/-- The recorded class names, folding pushNewTruth over the difference path
segments. -/
def updatedPaths (classesOfTruth : List String) (fromDecl toDecl : JsVal) :
    List String :=
  (diffSecondSegments fromDecl toDecl).foldl (pushNewTruth classesOfTruth) []

/-- Embedding of populateNonTruthClasses of diffHandler.js: the per-value copy.
The order of the branches is that of the source: the Array.isArray branch is
dead code, because arrays already satisfy the typeof object test and are
turned into index-keyed objects, while numbers and booleans match no branch
and are dropped. -/
def copyNonTruthValue (v : JsVal) : Option JsVal :=
  if jsTypeof v = "string" then some v
  else if jsTypeof v = "object" then some (objAssignToEmpty v)
  else if isArray v then some v
  else none

/-- One key of the forEach of populateNonTruthClasses: keys naming a class of
truth are skipped, the rest copy according to copyNonTruthValue. -/
def populateStep (classesOfTruth : List String) (acc : List (String × JsVal))
    (kv : String × JsVal) : List (String × JsVal) :=
  if classesOfTruth.contains kv.1 then acc
  else
    match copyNonTruthValue kv.2 with
    | some v => setField acc kv.1 v
    | none => acc

/-- Embedding of populateNonTruthClasses of diffHandler.js: copies every key of
the desired Common section that is not a class of truth.  On a non-object the
source would throw in Object.keys; that case is never reached. -/
def populateNonTruthClasses (declaration : JsVal) (classesOfTruth : List String) :
    JsVal :=
  match declaration with
  | JsVal.obj fs => JsVal.obj (fs.foldl (populateStep classesOfTruth) [])
  | _ => JsVal.obj []

/-- Copy of one updated class subtree into the final declaration, from the
working copy of the current declaration after convergence; at a recorded path
the converged value is exactly the state of the desired Common section there.
Strings copy by value, arrays by slice, and everything else through
Object.assign onto an empty object (which turns numbers, booleans, null and a
deleted binding into an empty object). -/
def copyConvergedValue : Option JsVal → JsVal
  | some (JsVal.str s) => JsVal.str s
  | some (JsVal.arr es) => JsVal.arr es
  | some v => objAssignToEmpty v
  | none => JsVal.obj []

/-- Embedding of DiffHandler.process of diffHandler.js: the declaration that
will be applied, built from the desired declaration toDeclaration and the
current declaration fromDeclaration. -/
def copyInStep (toCommon : JsVal) (acc : JsVal) (p : String) : JsVal :=
  acc.set p (copyConvergedValue (toCommon.get p))

/-- The kinds of value that the final copy loop of DiffHandler.process carries
over unchanged: strings copy by value, arrays by slice and objects by shallow
copy, while numbers, booleans and null collapse to an empty object. -/
def copyKindExact : JsVal → Bool
  | JsVal.str _ => true
  | JsVal.arr _ => true
  | JsVal.obj _ => true
  | _ => false

/-- Embedding of DiffHandler.process of diffHandler.js: the declaration that
will be applied, built from the desired declaration toDeclaration and the
current declaration fromDeclaration. -/
def dhProcess (classesOfTruth : List String)
    (toDeclaration fromDeclaration : JsVal) : JsVal :=
  let toCommon := toDeclaration.index "Common"
  let base := populateNonTruthClasses toCommon classesOfTruth
  let ups := updatedPaths classesOfTruth fromDeclaration toDeclaration
  JsVal.obj [("Common", ups.foldl (copyInStep toCommon) base)]

/-!
Embedding of src/nodejs/declarationParser.js.

The constructor copies the declaration with a shallow Object.assign, so every
nested object of this.declaration is shared with the object the caller passed
in.  The parse method deletes the class discriminator of each typed
sub-instance in place; through the shared sub-objects the caller observes
those deletions.  The embedding therefore threads the declaration value
through the traversal and returns its final state alongside the parsed
declaration.
-/

/-- Embedding of KEYS_TO_IGNORE of declarationParser.js. -/
def KEYS_TO_IGNORE : List String := ["schemaVersion", "class"]

/-- Embedding of isKeyOfInterest of declarationParser.js. -/
def isKeyOfInterest (key : String) : Bool := ¬ KEYS_TO_IGNORE.contains key

/-- Embedding of getTenants of declarationParser.js: the keys of interest
whose value carries a truthy class discriminator equal to Tenant. -/
def getTenants (declaration : JsVal) : List String :=
  (keysOf declaration).filter (fun p =>
    isKeyOfInterest p &&
      (truthy ((declaration.index p).index "class") &&
        jsStrictEqStr ((declaration.index p).index "class") "Tenant"))

/-- Embedding of getKeysOfInterest of declarationParser.js. -/
def getKeysOfInterest (o : JsVal) : List String :=
  (keysOf o).filter isKeyOfInterest

/-- The pattern if not parsed x then parsed x is a fresh empty object, used by
parse to create intermediate levels (the check is on truthiness). -/
def ensureKey (o : JsVal) (k : String) : JsVal :=
  if truthy (o.index k) then o else o.set k (JsVal.obj [])

/-- One property of one container, the body of the innermost forEach of parse.
The state is the pair of the threaded declaration and the parsed accumulator.
A typed sub-instance (an object value with a truthy class) loses its class key
in the declaration itself and is filed as a shallow copy without the class key
under declaration class, tenant, property class and synthesized full name; any
other value is filed directly under the synthesized full name.  (On a null
property the source would throw reading property.class; the embedding files it
like a plain value, and no theorem reaches that case.) -/
def parsePropertyStep (containerType tenantName containerName : String)
    (st : JsVal × JsVal) (key : String) : JsVal × JsVal :=
  if isKeyOfInterest key then
    let property := ((st.1.index tenantName).index containerName).index key
    let fullName :=
      if containerType = "System" then key else containerName ++ "_" ++ key
    if jsTypeof property = "object" && truthy (property.index "class") then
      let propertyClass := asKeyString (property.index "class")
      let declA := st.1.modify tenantName (fun tv =>
        tv.modify containerName (fun cv =>
          cv.modify key (fun pv => pv.erase "class")))
      let bag := property.erase "class"
      let parsedA := st.2.modify containerType (fun a =>
        a.modify tenantName (fun b =>
          (ensureKey b propertyClass).modify propertyClass (fun c =>
            c.set fullName bag)))
      (declA, parsedA)
    else
      (st.1,
        st.2.modify containerType (fun a =>
          a.modify tenantName (fun b => b.set fullName property)))
  else st

/-- One container of one tenant: read the container class, create the two
outer levels of the parsed document when absent, then fold over the container
keys.  The key list is taken from the container at loop entry, as Object.keys
does. -/
def parseContainerStep (tenantName : String) (st : JsVal × JsVal)
    (containerName : String) : JsVal × JsVal :=
  let container := (st.1.index tenantName).index containerName
  let containerType := asKeyString (container.index "class")
  let parsed := ensureKey st.2 containerType
  let parsed := parsed.modify containerType (fun a => ensureKey a tenantName)
  (keysOf container).foldl
    (parsePropertyStep containerType tenantName containerName)
    (st.1, parsed)

/-- One tenant: fold over its keys of interest, taken at tenant entry. -/
def parseTenantStep (st : JsVal × JsVal) (tenantName : String) : JsVal × JsVal :=
  (getKeysOfInterest (st.1.index tenantName)).foldl
    (parseContainerStep tenantName) st

/-- Result of DeclarationParser.parse together with the state in which the
call leaves the declaration object of the caller. -/
structure ParseResult where
  tenants : List String
  parsedDeclaration : JsVal
  declarationAfter : JsVal

/-- Embedding of DeclarationParser.parse of declarationParser.js, for a parser
constructed on the given declaration. -/
def dpParse (declaration : JsVal) : ParseResult :=
  let tenants := getTenants declaration
  let st := tenants.foldl parseTenantStep (declaration, JsVal.obj [])
  ⟨tenants, st.2, st.1⟩

/-!
Embedding of the ConfigManager source file (src/unnamed/part_002).

Device reads go through the external BigIp transport collaborator; the
embedding supplies their outcomes through an environment record, one entry
per read in issue order.  The snapshot store accessor lives in a module that
is not under src and is modelled from the spec.
-/

/-- One entry of a transform list of a config item property. -/
structure CfgTransform where
  id : String
  newId : Option String

/-- One property descriptor of a config item, as documented at the top of
ConfigManager. -/
structure CfgProperty where
  id : String
  newId : Option String
  truth : Option JsVal
  falsehood : Option JsVal
  skipWhenOmitted : Bool
  defaultWhenOmitted : Option JsVal
  transform : Option (List CfgTransform)

/-- The schemaMerge directive of a config item. -/
structure SchemaMergeOpts where
  path : List String
  action : Option String
  skipWhenOmitted : Bool

/-- A config item descriptor.  The ignore list carries the compiled regular
expression of each pair as a string predicate. -/
structure ConfigItem where
  path : String
  schemaClass : Option String
  properties : Option (List CfgProperty)
  references : List (String × List CfgProperty)
  singleValue : Bool
  nameless : Bool
  ignore : Option (List (String × (String → Bool)))
  schemaMerge : Option SchemaMergeOpts
  requiredModule : Option String

/-- Placeholder for the three RADIUS server name constants that ConfigManager
imports from sharedConstants.js, a file that is not under src.  They are
threaded as parameters; no claim depends on their values. -/
structure RadiusNames where
  serverMarker : String
  primaryName : String
  secondaryName : String

/-- Whether the first string ends with the second, computed over the character
lists so that concrete instances reduce in the kernel. -/
def strEndsWith (s suffix : String) : Bool :=
  suffix.data.reverse.isPrefixOf s.data.reverse

/-- Fuel-bounded worker of strSplitOn over character lists; a fuel of one more
than the length of the subject always suffices because every step consumes at
least one character. -/
def splitGo (sep : List Char) : Nat → List Char → List Char → List (List Char)
  | 0, _, acc => [acc.reverse]
  | _ + 1, [], acc => [acc.reverse]
  | fuel + 1, c :: rest, acc =>
    if ¬ sep.isEmpty && sep.isPrefixOf (c :: rest) then
      acc.reverse :: splitGo sep fuel ((c :: rest).drop sep.length) []
    else splitGo sep fuel rest (c :: acc)

/-- Splitting on a separator substring, scanning left to right without
overlap, as the JavaScript split method behaves on the non-empty separators
the sources use. -/
def strSplitOn (s sep : String) : List String :=
  (splitGo sep.data (s.data.length + 1) s.data []).map String.mk

/-- Generic association-list lookup. -/
def assocFind {α : Type} : List (String × α) → String → Option α
  | [], _ => none
  | (k, v) :: rest, key => if k = key then some v else assocFind rest key

/-- Generic association-list update, replacing in place or appending. -/
def assocSet {α : Type} : List (String × α) → String → α → List (String × α)
  | [], key, v => [(key, v)]
  | (k, w) :: rest, key, v =>
    if k = key then (k, v) :: rest else (k, w) :: assocSet rest key v

/-- Fields of an object value. -/
def objFields : JsVal → List (String × JsVal)
  | JsVal.obj fs => fs
  | _ => []

/-- Embedding of removeUnusedKeys of ConfigManager: shallow-copies the item
and drops kind, selfLink, every key ending in Reference, and with nameless
also the name key. -/
def removeUnusedKeys (item : JsVal) (nameless : Bool) : JsVal :=
  let keysToRemove := if nameless then ["kind", "selfLink", "name"] else ["kind", "selfLink"]
  JsVal.obj ((objFields (objAssignToEmpty item)).filter (fun kv =>
    ¬ (strEndsWith kv.1 "Reference") && ¬ keysToRemove.contains kv.1))

/-- Embedding of mapTruth of ConfigManager: a falsy or missing value maps to
false, otherwise the result of the strict comparison with the truth value of
the property. -/
def mapTruth (item : JsVal) (property : CfgProperty) : JsVal :=
  if ¬ truthy (item.index property.id) then JsVal.bool false
  else JsVal.bool (jsStrictEq (item.index property.id) (property.truth.getD JsVal.undef))

/-- Whether a value is the undefined value, the model of the frequent check
typeof x equals undefined. -/
def isUndef : JsVal → Bool
  | JsVal.undef => true
  | _ => false

/-- The JavaScript or-else operator on values. -/
def jsOr (a b : JsVal) : JsVal := if truthy a then a else b

/-- Nested assignment along a dotted path, creating an empty object at every
intermediate level whose current value is falsy, as the reduce inside mapNewId
of ConfigManager does. -/
def setPathCreating : JsVal → List String → JsVal → JsVal
  | o, [], _ => o
  | o, [k], v => o.set k v
  | o, k :: rest, v =>
    let o2 := if truthy (o.index k) then o else o.set k (JsVal.obj [])
    o2.modify k (fun inner => setPathCreating inner rest v)

/-- Embedding of mapNewId of ConfigManager.  A newId with an interior dot maps
the value into a nested object along the dotted path; afterwards the original
id is deleted.  The value is read before the intermediate levels are created,
which agrees with the source except when the id itself is a falsy intermediate
segment of the newId path, a case no descriptor and no theorem reaches. -/
def mapNewId (mappedItem : JsVal) (id newId : String) : JsVal :=
  let updated :=
    if (strSplitOn newId ".").length > 1 && ¬ newId.startsWith "." then
      setPathCreating mappedItem (strSplitOn newId ".") (mappedItem.index id)
    else mappedItem.set newId (mappedItem.index id)
  updated.erase id

/-- One entry of a transform list applied to the destructured original value,
the body of the innermost forEach of mapProperties. -/
def applyTransformEntry (orig : JsVal) (mi : JsVal) (trans : CfgTransform) : JsVal :=
  let propertyVal := jsOr (orig.index trans.id) ((orig.index "0").index trans.id)
  match trans.newId with
  | some nid => mi.set nid propertyVal
  | none => mi.set trans.id propertyVal

/-- Truth mapping of one property inside mapProperties: applied when the
descriptor declares a truth value, unless the raw value is absent and the
property is marked skipWhenOmitted. -/
def truthStage (property : CfgProperty) (mappedItem : JsVal) : JsVal :=
  if property.truth.isSome then
    if ¬ isUndef (mappedItem.index property.id) || ¬ property.skipWhenOmitted then
      mappedItem.set property.id (mapTruth mappedItem property)
    else mappedItem
  else mappedItem

/-- Stripping of a leading /Common/ partition prefix off a string-valued
property inside mapProperties. -/
def stripCommonStage (property : CfgProperty) (mappedItem : JsVal) : JsVal :=
  match mappedItem.index property.id with
  | JsVal.str s =>
    if s.startsWith "/Common/" then
      mappedItem.set property.id (JsVal.str (s.drop 8))
    else mappedItem
  | _ => mappedItem

/-- Transform expansion inside mapProperties: the composite value is deleted
and its destructured sub-fields redistributed as sibling properties. -/
def transformStage (property : CfgProperty) (mappedItem : JsVal) : JsVal :=
  match property.transform with
  | some transList =>
    let orig := objAssignToEmpty (mappedItem.index property.id)
    transList.foldl (applyTransformEntry orig) (mappedItem.erase property.id)
  | none => mappedItem

/-- Renaming through mapNewId inside mapProperties, for a property with a
value (hasVal in the source). -/
def renameStage (property : CfgProperty) (mappedItem : JsVal) : JsVal :=
  match property.newId with
  | some nid => mapNewId mappedItem property.id nid
  | none => mappedItem

/-- One property of the property list inside mapProperties of ConfigManager:
truth mapping (with skipWhenOmitted), stripping of a leading /Common/ on
string values, transform expansion, defaultWhenOmitted substitution and
renaming through mapNewId, in source order. -/
def mapPropertyStep (mappedItem : JsVal) (property : CfgProperty) : JsVal :=
  if ¬ isUndef ((truthStage property mappedItem).index property.id) then
    renameStage property
      (transformStage property (stripCommonStage property (truthStage property mappedItem)))
  else
    match property.defaultWhenOmitted with
    | some dflt =>
      renameStage property ((truthStage property mappedItem).set property.id dflt)
    | none => truthStage property mappedItem

/-- Embedding of mapProperties of ConfigManager.  With singleValue the result
is the bare value of the first listed property; otherwise the property list is
folded over a shallow copy of the item. -/
def mapProperties (cfgItem : ConfigItem) (item : JsVal) : JsVal :=
  let mappedItem := objAssignToEmpty item
  if cfgItem.singleValue then
    match cfgItem.properties with
    | some (p :: _) => mappedItem.index p.id
    | _ => JsVal.undef
  else
    (cfgItem.properties.getD []).foldl mapPropertyStep mappedItem

/-- Nested assignment along a schemaMerge path: intermediate levels are
created only when undefined (not merely falsy), and the final binding is
produced from its previous value by the given function. -/
def setPathMerge : JsVal → List String → (JsVal → JsVal) → JsVal
  | o, [], _ => o
  | o, [k], f => o.set k (f (o.index k))
  | o, k :: rest, f =>
    let o2 := if isUndef (o.index k) then o.set k (JsVal.obj []) else o
    o2.modify k (fun inner => setPathMerge inner rest f)

/-- Embedding of mapSchemaMerge of ConfigManager. -/
def mapSchemaMerge (target : JsVal) (value : JsVal) (opts : SchemaMergeOpts) : JsVal :=
  let isOmitted := isUndef value || (keysOf value).isEmpty
  if opts.skipWhenOmitted && isOmitted then target
  else
    setPathMerge target opts.path (fun old =>
      if opts.action = some "add" then
        objMergeInto (if isUndef old then JsVal.obj [] else old) value
      else value)

/-- Embedding of patchSelfIp of ConfigManager: a missing allowService becomes
the string none, and a singleton default array collapses to the string
default. -/
def patchSelfIp (selfIp : JsVal) : JsVal :=
  let patched := objAssignToEmpty selfIp
  if ¬ truthy (patched.index "allowService") then
    patched.set "allowService" (JsVal.str "none")
  else
    match patched.index "allowService" with
    | JsVal.arr [v] =>
      if jsStrictEqStr v "default" then patched.set "allowService" (JsVal.str "default")
      else patched
    | _ => patched

/-- Embedding of patchAuth of ConfigManager.  Without a schemaMerge the item
becomes the parent Authentication class with type renamed to
enabledSourceType; with one, a RADIUS server item is wrapped under primary or
secondary (undefined when its name carries the marker but matches neither
constant) and merged into the class copy through mapSchemaMerge. -/
def patchAuth (radius : RadiusNames) (schemaMerge : Option SchemaMergeOpts)
    (authClass : JsVal) (authItem : JsVal) : JsVal :=
  match schemaMerge with
  | none =>
    let ty := authItem.index "type"
    let ty := if jsStrictEqStr ty "active-directory" then JsVal.str "activeDirectory" else ty
    ((objMergeInto (JsVal.obj []) authItem).set "enabledSourceType" ty).erase "type"
  | some sm =>
    let authClassCopy := if ¬ truthy authClass then JsVal.obj [] else objAssignToEmpty authClass
    let patchedItem :=
      match authItem.index "name" with
      | JsVal.str nm =>
        if (strSplitOn nm radius.serverMarker).length > 1 then
          if nm = radius.primaryName then
            JsVal.obj [("primary", authItem.erase "name")]
          else if nm = radius.secondaryName then
            JsVal.obj [("secondary", authItem.erase "name")]
          else JsVal.undef
        else objAssignToEmpty authItem
      | _ => objAssignToEmpty authItem
    mapSchemaMerge authClassCopy patchedItem sm

/-- Embedding of shouldIgnore of ConfigManager: some ignore pair whose key
reads truthy on the item and whose regular expression matches the string
coercion of that value. -/
def shouldIgnore (item : JsVal) (ignoreList : Option (List (String × (String → Bool)))) : Bool :=
  match ignoreList with
  | none => false
  | some l => l.any (fun pr => truthy (item.index pr.1) && pr.2 (asKeyString (item.index pr.1)))

/-- The capture group of the regular expression that getReferencedPaths uses
to trim the Reference suffix off a property name.  Reference keys in the
descriptors always carry the suffix; on any other name the source would throw
on a null match, a case no theorem reaches. -/
def trimReference (property : String) : String :=
  if strEndsWith property "Reference" && property.length > 9 then property.dropRight 9
  else property

/-- The bookkeeping record that getReferencedPaths of ConfigManager pushes for
every reference read it issues, in issue order. -/
structure RefInfo where
  property : String
  schemaClass : String
  name : String
  properties : List CfgProperty

/-- Embedding of getReferencedPaths of ConfigManager, restricted to the
bookkeeping: the read itself is answered positionally by the environment.  A
reference read is issued for every property of the item that appears in the
references map of the config item and whose value carries a truthy link. -/
def getReferencedPaths (cfgItem : ConfigItem) (item : JsVal) : List RefInfo :=
  (keysOf item).filterMap (fun property =>
    match assocFind cfgItem.references property with
    | some refProps =>
      if truthy ((item.index property).index "link") then
        some ⟨trimReference property, (cfgItem.schemaClass).getD "undefined",
          asKeyString (item.index "name"), refProps⟩
      else none
    | none => none)

/-- Whether a property list of a config item can never reintroduce the given
key during mapProperties: no property id equals it, no newId equals it or
starts a dotted path at it, and no transform entry writes it. -/
def propsAvoidKey (key : String) (ps : List CfgProperty) : Bool :=
  ps.all (fun p =>
    (¬ (p.id = key)) &&
    ((match p.newId with
      | some nid => (¬ (nid = key)) && (¬ ((strSplitOn nid ".").headD "" = key))
      | none => true) &&
     (match p.transform with
      | some ts => ts.all (fun tr =>
          (¬ (tr.id = key)) &&
          (match tr.newId with
           | some nid2 => ¬ (nid2 = key)
           | none => true))
      | none => true)))

/-- Embedding of the db-variable scope computation at the top of
ConfigManager.get: the keys other than class of the DbVariables section of
the prior current config. -/
def dbVarsFromCurrent (currentConfigState : Option JsVal) : List String :=
  let ccc := currentConfigState.getD (JsVal.obj [])
  if truthy ccc && (truthy (ccc.index "Common") &&
      truthy ((ccc.index "Common").index "DbVariables")) then
    (keysOf ((ccc.index "Common").index "DbVariables")).filter (fun k => ¬ (k = "class"))
  else []

/-- Embedding of the db-variable scope computation at the top of
ConfigManager.get: the keys other than class of every Common member of the
declaration whose class discriminator is DbVariables. -/
def dbVarsFromDeclaration (declaration : JsVal) : List String :=
  if truthy (declaration.index "Common") then
    (keysOf (declaration.index "Common")).foldl
      (fun acc key =>
        if jsStrictEqStr (((declaration.index "Common").index key).index "class") "DbVariables" then
          acc ++ (keysOf ((declaration.index "Common").index key)).filter (fun k => ¬ (k = "class"))
        else acc)
      []
  else []

/-- The db variables of interest: those of the prior current config followed
by those of the declaration. -/
def getDbVarsOfInterest (currentConfigState : Option JsVal) (declaration : JsVal) :
    List String :=
  dbVarsFromCurrent currentConfigState ++ dbVarsFromDeclaration declaration

/-- The name values of the provisioning entries whose level is not none, as
collected at the start of ConfigManager.get. -/
def provisionedNames (provisioning : JsVal) : List JsVal :=
  match provisioning with
  | JsVal.arr ms =>
    (ms.filter (fun m => ¬ jsStrictEqStr (m.index "level") "none")).map (fun m => m.index "name")
  | _ => []

/-- Device identity as returned by the deviceInfo read of the BigIp
collaborator. -/
structure DeviceInfo where
  machineId : String
  hostname : String

/-- The token replacement map getTokenMap resolves. -/
structure TokenMap where
  hostName : String
  deviceName : String

/-- Embedding of getTokenMap of ConfigManager: the cluster device list must
contain exactly one device whose hostname equals the hostname of the managed
device; any other count rejects with the fixed message.  (A non-array device
list would throw in the source; the embedding maps it to the same rejection,
and no theorem reaches that case.) -/
def getTokenMap (deviceInfo : DeviceInfo) (cmDeviceInfo : JsVal) : Except String TokenMap :=
  match cmDeviceInfo with
  | JsVal.arr devices =>
    match devices.filter (fun d => jsStrictEqStr (d.index "hostname") deviceInfo.hostname) with
    | [d] => Except.ok ⟨deviceInfo.hostname, asKeyString (d.index "name")⟩
    | _ => Except.error "Too many devices match our name"
  | _ => Except.error "Too many devices match our name"

/-- Accumulator of the result-processing stage of ConfigManager.get: the
current config under construction and the reference bookkeeping in issue
order. -/
structure ProcAcc where
  currentConfig : JsVal
  referenceInfo : List RefInfo

/-- Embedding of the per-element body of the array branch of the
result-processing stage of ConfigManager.get (ignore rules, cleanup, property
mapping, name normalization, the RemoteAuthRole, SelfIp, DbVariables and
Authentication special cases, storage under the instance name, and reference
bookkeeping). -/
def processArrayItem (radius : RadiusNames) (dbVarsOfInterest : List String)
    (cfgItem : ConfigItem) (schemaClass : String) (acc : ProcAcc) (item : JsVal) :
    ProcAcc :=
  if shouldIgnore item cfgItem.ignore then acc
  else
    let patched := mapProperties cfgItem (removeUnusedKeys item cfgItem.nameless)
    let nameRaw := asKeyString (item.index "name")
    let name :=
      if nameRaw.startsWith "/Common/" then (strSplitOn nameRaw "/Common/").getD 1 ""
      else nameRaw
    let patched := if schemaClass = "RemoteAuthRole" then patched.set "name" (JsVal.str name) else patched
    let patched := if schemaClass = "SelfIp" then patchSelfIp patched else patched
    let patchedOpt :=
      if schemaClass = "DbVariables" then
        match item.index "name" with
        | JsVal.str s => if dbVarsOfInterest.contains s then some patched else none
        | _ => none
      else some patched
    let stepped :=
      if schemaClass = "Authentication" then
        (acc.currentConfig.set schemaClass
          (patchAuth radius cfgItem.schemaMerge (acc.currentConfig.index schemaClass) patched),
          (none : Option JsVal))
      else (acc.currentConfig, patchedOpt)
    let cc :=
      match stepped.2 with
      | some p =>
        if truthy p then
          let cc2 := if truthy (stepped.1.index schemaClass) then stepped.1
            else stepped.1.set schemaClass (JsVal.obj [])
          cc2.modify schemaClass (fun x => x.set name p)
        else stepped.1
      | none => stepped.1
    ⟨cc, acc.referenceInfo ++ getReferencedPaths cfgItem item⟩

/-- One remote server entry of the SyslogRemoteServer special case: the name
is stripped of a /Common/ part in place and the server is re-filed under its
name. -/
def patchSyslogServer (patched : JsVal) (server : JsVal) : JsVal :=
  let server :=
    match server.index "name" with
    | JsVal.str s =>
      if (strSplitOn s "/Common/").length > 1 then
        server.set "name" (JsVal.str ((strSplitOn s "/Common/").getD 1 ""))
      else server
    | _ => server
  patched.set (asKeyString (server.index "name")) (objAssignToEmpty server)

/-- The SyslogRemoteServer special case of the non-array branch: every entry
of remoteServers is re-filed under its name and the remoteServers key is
deleted. -/
def patchSyslog (patched : JsVal) : JsVal :=
  let servers :=
    match patched.index "remoteServers" with
    | JsVal.arr es => es
    | _ => []
  (servers.foldl patchSyslogServer patched).erase "remoteServers"

/-- Embedding of the body of the results.forEach of ConfigManager.get for one
config item and its read outcome (none marks an item skipped for a missing
required module). -/
def processOneResult (radius : RadiusNames) (dbVarsOfInterest : List String)
    (acc : ProcAcc) (cfgItem : ConfigItem) (result : Option JsVal) : ProcAcc :=
  match result with
  | none => acc
  | some currentItem =>
    match cfgItem.schemaClass with
    | none =>
      match currentItem with
      | JsVal.obj fs =>
        ⟨fs.foldl (fun c kv => c.set kv.1 kv.2) acc.currentConfig, acc.referenceInfo⟩
      | _ => acc
    | some schemaClass =>
      match currentItem with
      | JsVal.arr items =>
        if items.isEmpty && ¬ truthy (acc.currentConfig.index schemaClass) then
          ⟨acc.currentConfig.set schemaClass (JsVal.obj []), acc.referenceInfo⟩
        else
          items.foldl (processArrayItem radius dbVarsOfInterest cfgItem schemaClass) acc
      | _ =>
        if ¬ shouldIgnore currentItem cfgItem.ignore then
          let patched := mapProperties cfgItem (removeUnusedKeys currentItem cfgItem.nameless)
          let patched :=
            if schemaClass = "Authentication" then
              patchAuth radius cfgItem.schemaMerge (acc.currentConfig.index schemaClass) patched
            else patched
          let patched := if schemaClass = "SyslogRemoteServer" then patchSyslog patched else patched
          ⟨acc.currentConfig.set schemaClass patched,
            acc.referenceInfo ++ getReferencedPaths cfgItem currentItem⟩
        else acc

/-- The result-processing stage of ConfigManager.get over all config items
and their read outcomes. -/
def processResults (radius : RadiusNames) (dbVarsOfInterest : List String)
    (cfg : List ConfigItem) (results : List (Option JsVal)) : ProcAcc :=
  (cfg.zip results).foldl
    (fun acc pr => processOneResult radius dbVarsOfInterest acc pr.1 pr.2)
    ⟨JsVal.obj [], []⟩

/-- The re-mapping of one fetched reference entry during the splice stage:
cleanup followed by truth mapping of the reference properties that declare a
truth value. -/
def mapReferenceItem (refProperties : List CfgProperty) (reference : JsVal) : JsVal :=
  let patched := removeUnusedKeys reference false
  refProperties.foldl
    (fun p refProperty =>
      if refProperty.truth.isSome then p.set refProperty.id (mapTruth p refProperty) else p)
    patched

/-- Embedding of the splice stage of ConfigManager.get for one reference read:
the owning instance receives the re-mapped array under the trimmed property
name. -/
def spliceReference (cc : JsVal) (pr : RefInfo × JsVal) : JsVal :=
  let mapped :=
    match pr.2 with
    | JsVal.arr rs => rs.map (mapReferenceItem pr.1.properties)
    | _ => []
  cc.modify pr.1.schemaClass (fun x =>
    x.modify pr.1.name (fun inst => inst.set pr.1.property (JsVal.arr mapped)))

/-- Modelled from the spec: the Original-State Snapshot Store accessor
(getOriginalConfigByConfigId of the doState module, which is not under src):
get of a device identity returns the stored document or absent. -/
def storeGet (store : List (String × JsVal)) (id : String) : Option JsVal :=
  assocFind store id

/-- Modelled from the spec: the Original-State Snapshot Store accessor
(setOriginalConfigByConfigId of the doState module, which is not under src):
set stores the document under the device identity. -/
def storeSet (store : List (String × JsVal)) (id : String) (v : JsVal) :
    List (String × JsVal) :=
  assocSet store id v

/-- The task state record threaded through ConfigManager.get (the fields of
state that get reads or assigns). -/
structure CMState where
  currentConfig : Option JsVal
  originalConfig : Option JsVal

/-- The db-variable backfill of the commit stage of ConfigManager.get: when
the current config carries DbVariables, ensure the snapshot has a DbVariables
section and add every variable whose snapshot value is falsy.  The source
tests falsiness, not absence, so an existing falsy snapshot value is
overwritten. -/
def backfillDbVars (currentDbVariables : JsVal) (originalConfig : JsVal) : JsVal :=
  if truthy currentDbVariables then
    let oc :=
      if ¬ truthy ((originalConfig.index "Common").index "DbVariables") then
        originalConfig.modify "Common" (fun c => c.set "DbVariables" (JsVal.obj []))
      else originalConfig
    (keysOf currentDbVariables).foldl
      (fun oc dbVar =>
        if ¬ truthy (((oc.index "Common").index "DbVariables").index dbVar) then
          oc.modify "Common" (fun c =>
            c.modify "DbVariables" (fun d => d.set dbVar (currentDbVariables.index dbVar)))
        else oc)
      oc
  else originalConfig

/-- Embedding of the final then-block of ConfigManager.get: assign the parsed
current config to the task state, adopt a legacy snapshot carried in the
state when the store has none, resolve the snapshot (falling back to the
current config), backfill db variables, persist the snapshot and record it on
the state. -/
def commitStage (machineId : String) (currentConfig : JsVal) (st : CMState)
    (store : List (String × JsVal)) : CMState × List (String × JsVal) :=
  let stateCurrentConfig := JsVal.obj [("parsed", JsVal.bool true), ("Common", currentConfig)]
  let store :=
    match st.originalConfig with
    | some oc =>
      if truthy oc && ¬ truthy ((storeGet store machineId).getD JsVal.undef) then
        storeSet store machineId oc
      else store
    | none => store
  let originalConfig :=
    match storeGet store machineId with
    | some v => if truthy v then v else stateCurrentConfig
    | none => stateCurrentConfig
  let currentDbVariables := (stateCurrentConfig.index "Common").index "DbVariables"
  let originalConfig := backfillDbVars currentDbVariables originalConfig
  let store := storeSet store machineId originalConfig
  (⟨some stateCurrentConfig, some originalConfig⟩, store)

/-- Environment of one ConfigManager.get run: the outcome of every device
read in issue order (provisioning, device info, cluster device list, one
entry per config item, one entry per issued reference read). -/
structure CMEnv where
  provision : Except String JsVal
  deviceInfo : Except String DeviceInfo
  cmDevices : Except String JsVal
  itemResults : List (Except String JsVal)
  refResults : List (Except String JsVal)

/-- Promise.all over the config item reads: an item whose required module is
not provisioned resolves to a skip marker without consuming its read; any
failed read of a non-skipped item rejects the stage. -/
def collectItemReads (cfg : List ConfigItem) (provisioned : List JsVal) :
    List (Except String JsVal) → Except String (List (Option JsVal))
  | reads =>
    match cfg, reads with
    | [], _ => Except.ok []
    | item :: rest, r :: rs =>
      if (match item.requiredModule with
          | some m => ¬ provisioned.any (fun v => jsStrictEq v (JsVal.str m))
          | none => false : Bool) then
        (collectItemReads rest provisioned rs).map (fun l => none :: l)
      else
        match r with
        | Except.ok v => (collectItemReads rest provisioned rs).map (fun l => some v :: l)
        | Except.error e => Except.error e
    | _ :: _, [] => Except.error "missing device read"

/-- Promise.all over the issued reference reads, consumed positionally. -/
def collectRefReads : Nat → List (Except String JsVal) → Except String (List JsVal)
  | 0, _ => Except.ok []
  | Nat.succ n, r :: rs =>
    match r with
    | Except.ok v => (collectRefReads n rs).map (fun l => v :: l)
    | Except.error e => Except.error e
  | Nat.succ _, [] => Except.error "missing device read"

/-- Embedding of ConfigManager.get: the promise chain in source order.  Every
failing read short-circuits before the commit stage, so the task state and
the snapshot store are returned unchanged together with the rejection. -/
def configManagerGet (radius : RadiusNames) (cfg : List ConfigItem) (env : CMEnv)
    (declaration : JsVal) (st : CMState) (store : List (String × JsVal)) :
    CMState × List (String × JsVal) × Except String Unit :=
  let dbVars := getDbVarsOfInterest st.currentConfig declaration
  match env.provision with
  | Except.error e => (st, store, Except.error e)
  | Except.ok provisioning =>
    match env.deviceInfo with
    | Except.error e => (st, store, Except.error e)
    | Except.ok deviceInfo =>
      match env.cmDevices with
      | Except.error e => (st, store, Except.error e)
      | Except.ok cmDeviceInfo =>
        match getTokenMap deviceInfo cmDeviceInfo with
        | Except.error e => (st, store, Except.error e)
        | Except.ok _tokenMap =>
          match collectItemReads cfg (provisionedNames provisioning) env.itemResults with
          | Except.error e => (st, store, Except.error e)
          | Except.ok results =>
            let acc := processResults radius dbVars cfg results
            match collectRefReads acc.referenceInfo.length env.refResults with
            | Except.error e => (st, store, Except.error e)
            | Except.ok refVals =>
              let cc := (acc.referenceInfo.zip refVals).foldl spliceReference acc.currentConfig
              let committed := commitStage deviceInfo.machineId cc st store
              (committed.1, committed.2, Except.ok ())

/-!
Supporting lemmas about the object operations.
-/

theorem lookupField_setField_self (fs : List (String × JsVal)) (k : String) (v : JsVal) :
    lookupField (setField fs k v) k = some v := by
  induction fs with
  | nil => simp [setField, lookupField]
  | cons hd tl ih =>
    obtain ⟨k1, v1⟩ := hd
    by_cases h : k1 = k
    · simp [setField, lookupField, h]
    · simp [setField, lookupField, h, ih]

theorem lookupField_setField_ne (fs : List (String × JsVal)) (k k2 : String) (v : JsVal)
    (h : ¬ k2 = k) : lookupField (setField fs k v) k2 = lookupField fs k2 := by
  have hks : ¬ k = k2 := fun he => h he.symm
  induction fs with
  | nil => simp [setField, lookupField, hks]
  | cons hd tl ih =>
    obtain ⟨k1, v1⟩ := hd
    by_cases hk : k1 = k
    · have hne : ¬ k1 = k2 := by rw [hk]; exact hks
      simp [setField, lookupField, hk, hne, hks]
    · by_cases hk2 : k1 = k2
      · simp [setField, lookupField, hk, hk2, h, hks]
      · simp [setField, lookupField, hk, hk2, ih]

theorem get_obj (fs : List (String × JsVal)) (k : String) :
    (JsVal.obj fs).get k = lookupField fs k := rfl

theorem foldl_copyInStep_not_mem (toCommon : JsVal) (l : List String) (K : String)
    (bs : List (String × JsVal)) (h : K ∉ l) :
    (l.foldl (copyInStep toCommon) (JsVal.obj bs)).get K = lookupField bs K := by
  induction l generalizing bs with
  | nil => simp [JsVal.get]
  | cons p rest ih =>
    have hK : K ∉ rest := fun hm => h (List.mem_cons_of_mem _ hm)
    have hne : ¬ K = p := fun he => h (he ▸ List.mem_cons_self _ _)
    rw [List.foldl_cons]
    calc (rest.foldl (copyInStep toCommon) (copyInStep toCommon (JsVal.obj bs) p)).get K
        = lookupField (setField bs p (copyConvergedValue (toCommon.get p))) K :=
          ih _ hK
      _ = lookupField bs K := lookupField_setField_ne _ _ _ _ hne

theorem foldl_copyInStep_mem (toCommon : JsVal) (l : List String) (K : String)
    (bs : List (String × JsVal)) (h : K ∈ l) :
    (l.foldl (copyInStep toCommon) (JsVal.obj bs)).get K =
      some (copyConvergedValue (toCommon.get K)) := by
  induction l generalizing bs with
  | nil => exact absurd h (List.not_mem_nil K)
  | cons p rest ih =>
    rw [List.foldl_cons]
    by_cases hr : K ∈ rest
    · exact ih _ hr
    · have hp : K = p := by
        rcases List.mem_cons.mp h with h1 | h2
        · exact h1
        · exact absurd h2 hr
      subst hp
      calc (rest.foldl (copyInStep toCommon) (copyInStep toCommon (JsVal.obj bs) K)).get K
          = lookupField (setField bs K (copyConvergedValue (toCommon.get K))) K :=
            foldl_copyInStep_not_mem _ _ _ _ hr
        _ = some (copyConvergedValue (toCommon.get K)) := lookupField_setField_self _ _ _

theorem populateStep_lookup_none (classesOfTruth : List String) (K : String)
    (hK : K ∈ classesOfTruth) (acc : List (String × JsVal))
    (kv : String × JsVal) (hacc : lookupField acc K = none) :
    lookupField (populateStep classesOfTruth acc kv) K = none := by
  obtain ⟨k1, v1⟩ := kv
  by_cases ht : k1 ∈ classesOfTruth
  · simpa [populateStep, ht] using hacc
  · have hne : ¬ K = k1 := fun he => ht (he ▸ hK)
    have hstep : populateStep classesOfTruth acc (k1, v1) =
        (match copyNonTruthValue v1 with
         | some v => setField acc k1 v
         | none => acc) := by
      simp [populateStep, ht]
    rw [hstep]
    cases hcv : copyNonTruthValue v1 with
    | none => simpa using hacc
    | some v => rw [lookupField_setField_ne _ _ _ _ hne, hacc]

theorem populate_get_of_truth (tfs : List (String × JsVal)) (classesOfTruth : List String)
    (K : String) (hK : K ∈ classesOfTruth) :
    (populateNonTruthClasses (JsVal.obj tfs) classesOfTruth).get K = none := by
  suffices hgen : ∀ acc : List (String × JsVal), lookupField acc K = none →
      lookupField (tfs.foldl (populateStep classesOfTruth) acc) K = none by
    simpa [populateNonTruthClasses, JsVal.get] using hgen [] rfl
  induction tfs with
  | nil => intro acc hacc; simpa using hacc
  | cons hd tl ih =>
    intro acc hacc
    rw [List.foldl_cons]
    exact ih _ (populateStep_lookup_none classesOfTruth K hK acc hd hacc)

theorem mem_pushNewTruth_foldl (classesOfTruth : List String) (K : String) :
    ∀ (l : List String) (acc : List String),
      (K ∈ l.foldl (pushNewTruth classesOfTruth) acc ↔
        (K ∈ acc ∨ (K ∈ l ∧ K ∈ classesOfTruth))) := by
  intro l
  induction l with
  | nil => intro acc; simp
  | cons k rest ih =>
    intro acc
    rw [List.foldl_cons]
    by_cases hin : k ∈ classesOfTruth
    · by_cases hacc : k ∈ acc
      · have hstep : pushNewTruth classesOfTruth acc k = acc := by
          simp [pushNewTruth, hacc]
        rw [hstep, ih]
        constructor
        · rintro (hm | hm)
          · exact Or.inl hm
          · exact Or.inr ⟨List.mem_cons_of_mem _ hm.1, hm.2⟩
        · rintro (hm | ⟨hmem, hct⟩)
          · exact Or.inl hm
          · rcases List.mem_cons.mp hmem with he | hm2
            · exact Or.inl (he ▸ hacc)
            · exact Or.inr ⟨hm2, hct⟩
      · have hstep : pushNewTruth classesOfTruth acc k = acc ++ [k] := by
          simp [pushNewTruth, hin, hacc]
        rw [hstep, ih]
        constructor
        · rintro (hm | hm)
          · rcases List.mem_append.mp hm with hm2 | hm2
            · exact Or.inl hm2
            · have hKk : K = k := by simpa using hm2
              exact Or.inr ⟨hKk ▸ List.mem_cons_self _ _, hKk ▸ hin⟩
          · exact Or.inr ⟨List.mem_cons_of_mem _ hm.1, hm.2⟩
        · rintro (hm | ⟨hmem, hct⟩)
          · exact Or.inl (List.mem_append.mpr (Or.inl hm))
          · rcases List.mem_cons.mp hmem with he | hm2
            · exact Or.inl (List.mem_append.mpr (Or.inr (by simp [he])))
            · exact Or.inr ⟨hm2, hct⟩
    · have hstep : pushNewTruth classesOfTruth acc k = acc := by
        simp [pushNewTruth, hin]
      rw [hstep, ih]
      constructor
      · rintro (hm | hm)
        · exact Or.inl hm
        · exact Or.inr ⟨List.mem_cons_of_mem _ hm.1, hm.2⟩
      · rintro (hm | ⟨hmem, hct⟩)
        · exact Or.inl hm
        · rcases List.mem_cons.mp hmem with he | hm2
          · exact absurd (he ▸ hct) hin
          · exact Or.inr ⟨hm2, hct⟩

theorem mem_updatedPaths (classesOfTruth : List String) (fromDecl toDecl : JsVal)
    (K : String) :
    K ∈ updatedPaths classesOfTruth fromDecl toDecl ↔
      (K ∈ diffSecondSegments fromDecl toDecl ∧ K ∈ classesOfTruth) := by
  have h := mem_pushNewTruth_foldl classesOfTruth K (diffSecondSegments fromDecl toDecl) []
  simpa [updatedPaths] using h

theorem mem_unionKeys (fs gs : List (String × JsVal)) (K : String) :
    K ∈ unionKeys fs gs ↔ (K ∈ fs.map Prod.fst ∨ K ∈ gs.map Prod.fst) := by
  simp only [unionKeys, List.mem_append, List.mem_filter, List.mem_dedup]
  constructor
  · rintro (h | h)
    · exact Or.inl h
    · exact Or.inr h.1
  · rintro (h | h)
    · exact Or.inl h
    · by_cases hf : K ∈ (fs.map Prod.fst).dedup
      · exact Or.inl (List.mem_dedup.mp hf)
      · refine Or.inr ⟨h, ?_⟩
        simpa using fun hm => hf (List.mem_dedup.mpr hm)

theorem diffSecondSegments_single (ffs tfs : List (String × JsVal)) :
    diffSecondSegments (JsVal.obj [("Common", JsVal.obj ffs)])
        (JsVal.obj [("Common", JsVal.obj tfs)]) =
      (unionKeys ffs tfs).filter
        (fun k => ¬ optionDeepEqual (lookupField ffs k) (lookupField tfs k)) := by
  simp [diffSecondSegments, unionKeys, lookupField]


theorem lookupField_mem_keys (fs : List (String × JsVal)) (K : String) (v : JsVal)
    (h : lookupField fs K = some v) : K ∈ fs.map Prod.fst := by
  induction fs with
  | nil => simp [lookupField] at h
  | cons hd tl ih =>
    obtain ⟨k1, v1⟩ := hd
    by_cases hk : k1 = K
    · simp [hk]
    · simp only [lookupField, if_neg hk] at h
      exact List.mem_cons_of_mem _ (ih h)

theorem copyConvergedValue_of_kind (v : JsVal) (h : copyKindExact v = true) :
    copyConvergedValue (some v) = v := by
  cases v <;> simp_all [copyKindExact, copyConvergedValue, objAssignToEmpty]

/-!
The claims about DiffHandler.process.
-/

/-- C1: the claim states that every Common key of the desired declaration that
does not name a class of truth is carried into the merged declaration
deep-equal to its desired value, for string, array, object, number and
boolean values alike.  The code fails this: with no classes of truth, a
boolean-valued key is dropped entirely (no branch of populateNonTruthClasses
matches a boolean), and an array-valued key is converted into an index-keyed
object, which is not deep-equal to the array.  The unreachable Array.isArray
branch of the source shows arrays were meant to be copied by slice. -/
theorem c1_nontruth_values_dropped_or_mangled :
    (((dhProcess []
        (JsVal.obj [("Common", JsVal.obj
          [("a", JsVal.arr [JsVal.num 1, JsVal.num 2]), ("b", JsVal.bool true)])])
        (JsVal.obj [("Common", JsVal.obj [])])).index "Common").get "b" = none) ∧
    (((dhProcess []
        (JsVal.obj [("Common", JsVal.obj
          [("a", JsVal.arr [JsVal.num 1, JsVal.num 2]), ("b", JsVal.bool true)])])
        (JsVal.obj [("Common", JsVal.obj [])])).index "Common").get "a" =
      some (JsVal.obj [("0", JsVal.num 1), ("1", JsVal.num 2)])) ∧
    deepEqual (JsVal.obj [("0", JsVal.num 1), ("1", JsVal.num 2)])
      (JsVal.arr [JsVal.num 1, JsVal.num 2]) = false :=
  ⟨rfl, rfl, rfl⟩

/-- C2 counterexample: the claim as stated is false.  With class K a class of
truth present in both declarations, deep-equal subtrees do not appear in the
merged declaration at all (first conjunct), and when number-valued subtrees
differ the merged value is an empty object rather than the desired number
(second and third conjuncts). -/
theorem c2_counterexample :
    (((dhProcess ["K"]
        (JsVal.obj [("Common", JsVal.obj [("K", JsVal.obj [("x", JsVal.num 1)])])])
        (JsVal.obj [("Common", JsVal.obj [("K", JsVal.obj [("x", JsVal.num 1)])])])).index
          "Common").get "K" = none) ∧
    (((dhProcess ["K"]
        (JsVal.obj [("Common", JsVal.obj [("K", JsVal.num 5)])])
        (JsVal.obj [("Common", JsVal.obj [("K", JsVal.num 6)])])).index
          "Common").get "K" = some (JsVal.obj [])) ∧
    deepEqual (JsVal.obj []) (JsVal.num 5) = false :=
  ⟨rfl, rfl, rfl⟩

/-- C2 amended: for a class K of truth present in the Common section of both
declarations, if the desired and current values are deep-equal the merged
declaration contains no binding for K (there is nothing to write); if they
differ and the desired value is a string, an array or an object, the merged
Common section binds K to exactly the desired value. -/
theorem c2_truth_class_merge_amended (classesOfTruth : List String) (K : String)
    (tfs ffs : List (String × JsVal)) (v w : JsVal)
    (hK : K ∈ classesOfTruth)
    (ht : lookupField tfs K = some v)
    (hf : lookupField ffs K = some w)
    (hc1 : jsonClean (JsVal.obj [("Common", JsVal.obj tfs)]) = true)
    (hc2 : jsonClean (JsVal.obj [("Common", JsVal.obj ffs)]) = true) :
    (deepEqual w v = true →
      ((dhProcess classesOfTruth (JsVal.obj [("Common", JsVal.obj tfs)])
          (JsVal.obj [("Common", JsVal.obj ffs)])).index "Common").get K = none) ∧
    (deepEqual w v = false → copyKindExact v = true →
      ((dhProcess classesOfTruth (JsVal.obj [("Common", JsVal.obj tfs)])
          (JsVal.obj [("Common", JsVal.obj ffs)])).index "Common").get K = some v) := by
  have hToCommon : (JsVal.obj [("Common", JsVal.obj tfs)]).index "Common" = JsVal.obj tfs := by
    simp [JsVal.index, JsVal.get, lookupField]
  have hmain : (dhProcess classesOfTruth (JsVal.obj [("Common", JsVal.obj tfs)])
      (JsVal.obj [("Common", JsVal.obj ffs)])).index "Common" =
      (updatedPaths classesOfTruth (JsVal.obj [("Common", JsVal.obj ffs)])
          (JsVal.obj [("Common", JsVal.obj tfs)])).foldl
        (copyInStep (JsVal.obj tfs))
        (populateNonTruthClasses (JsVal.obj tfs) classesOfTruth) := by
    simp only [dhProcess, hToCommon, JsVal.index, JsVal.get, lookupField]
    simp
  have hsegiff : K ∈ diffSecondSegments (JsVal.obj [("Common", JsVal.obj ffs)])
      (JsVal.obj [("Common", JsVal.obj tfs)]) ↔
      ¬ optionDeepEqual (lookupField ffs K) (lookupField tfs K) = true := by
    rw [diffSecondSegments_single, List.mem_filter]
    constructor
    · intro hm
      simpa using hm.2
    · intro hne
      refine ⟨(mem_unionKeys ffs tfs K).mpr (Or.inl (lookupField_mem_keys ffs K w hf)), ?_⟩
      simpa using hne
  have hbase : populateNonTruthClasses (JsVal.obj tfs) classesOfTruth =
      JsVal.obj (tfs.foldl (populateStep classesOfTruth) []) := rfl
  constructor
  · intro hde
    have hnotseg : K ∉ diffSecondSegments (JsVal.obj [("Common", JsVal.obj ffs)])
        (JsVal.obj [("Common", JsVal.obj tfs)]) := by
      intro hm
      have := hsegiff.mp hm
      rw [hf, ht] at this
      exact this (by simpa [optionDeepEqual] using hde)
    have hnotups : K ∉ updatedPaths classesOfTruth (JsVal.obj [("Common", JsVal.obj ffs)])
        (JsVal.obj [("Common", JsVal.obj tfs)]) := by
      intro hm
      exact hnotseg ((mem_updatedPaths _ _ _ _).mp hm).1
    rw [hmain, hbase, foldl_copyInStep_not_mem _ _ _ _ hnotups]
    have := populate_get_of_truth tfs classesOfTruth K hK
    rw [hbase] at this
    simpa [JsVal.get] using this
  · intro hde hkind
    have hseg : K ∈ diffSecondSegments (JsVal.obj [("Common", JsVal.obj ffs)])
        (JsVal.obj [("Common", JsVal.obj tfs)]) := by
      apply hsegiff.mpr
      rw [hf, ht]
      simp [optionDeepEqual, hde]
    have hups : K ∈ updatedPaths classesOfTruth (JsVal.obj [("Common", JsVal.obj ffs)])
        (JsVal.obj [("Common", JsVal.obj tfs)]) :=
      (mem_updatedPaths _ _ _ _).mpr ⟨hseg, hK⟩
    rw [hmain, hbase, foldl_copyInStep_mem _ _ _ _ hups]
    rw [get_obj, ht, copyConvergedValue_of_kind v hkind]

/-- C2 amended witness: a concrete instantiation with differing object
subtrees under the class of truth K. -/
theorem c2_truth_class_merge_amended_witness :
    ((dhProcess ["K"]
        (JsVal.obj [("Common", JsVal.obj [("K", JsVal.obj [("x", JsVal.num 1)])])])
        (JsVal.obj [("Common", JsVal.obj [("K", JsVal.obj [("x", JsVal.num 2)])])])).index
          "Common").get "K" = some (JsVal.obj [("x", JsVal.num 1)]) :=
  (c2_truth_class_merge_amended ["K"] "K"
      [("K", JsVal.obj [("x", JsVal.num 1)])] [("K", JsVal.obj [("x", JsVal.num 2)])]
      (JsVal.obj [("x", JsVal.num 1)]) (JsVal.obj [("x", JsVal.num 2)])
      (by decide) rfl rfl rfl rfl).2 rfl rfl

theorem lookupField_filter_self_none (fs : List (String × JsVal)) (k : String) :
    lookupField (fs.filter (fun kv => ¬ (kv.1 = k))) k = none := by
  induction fs with
  | nil => simp [lookupField]
  | cons hd tl ih =>
    obtain ⟨k1, v1⟩ := hd
    by_cases h : k1 = k
    · simpa [h] using ih
    · simpa [h, lookupField] using ih

theorem parse_single_container (sv t c k ct pc : String)
    (bagFields : List (String × JsVal))
    (hti : isKeyOfInterest t = true) (hci : isKeyOfInterest c = true)
    (hki : isKeyOfInterest k = true) (hpc : ¬ pc = "") :
    (dpParse (JsVal.obj [("schemaVersion", JsVal.str sv), ("class", JsVal.str "Device"),
        (t, JsVal.obj [("class", JsVal.str "Tenant"),
          (c, JsVal.obj [("class", JsVal.str ct),
            (k, JsVal.obj (("class", JsVal.str pc) :: bagFields))])])])).parsedDeclaration =
      JsVal.obj [(ct, JsVal.obj [(t, JsVal.obj [(pc, JsVal.obj
        [(if ct = "System" then k else c ++ "_" ++ k,
          JsVal.obj (bagFields.filter (fun kv => ¬ (kv.1 = "class"))))])])])] := by
  have hderived : ¬ (t = "schemaVersion") ∧ ¬ (t = "class") := by
    simpa [isKeyOfInterest, KEYS_TO_IGNORE] using hti
  have ht1 : ¬ ("schemaVersion" = t) := fun h => hderived.1 h.symm
  have ht2 : ¬ ("class" = t) := fun h => hderived.2 h.symm
  have hcder : ¬ (c = "schemaVersion") ∧ ¬ (c = "class") := by
    simpa [isKeyOfInterest, KEYS_TO_IGNORE] using hci
  have hc2 : ¬ ("class" = c) := fun h => hcder.2 h.symm
  have hkder : ¬ (k = "schemaVersion") ∧ ¬ (k = "class") := by
    simpa [isKeyOfInterest, KEYS_TO_IGNORE] using hki
  have hk2 : ¬ ("class" = k) := fun h => hkder.2 h.symm
  simp [dpParse, getTenants, getKeysOfInterest, keysOf, isKeyOfInterest, KEYS_TO_IGNORE,
    parseTenantStep, parseContainerStep, parsePropertyStep, ensureKey,
    JsVal.index, JsVal.get, JsVal.set, JsVal.modify, JsVal.erase, lookupField, setField,
    jsStrictEqStr, truthy, jsTypeof, asKeyString,
    ht1, ht2, hc2, hk2, hderived.1, hderived.2, hcder.1, hcder.2, hkder.1, hkder.2, hpc]

theorem append_name_inj (A B x : String) (h : A ++ "_" ++ x = B ++ "_" ++ x) : A = B := by
  have hdata : A.data ++ "_".data ++ x.data = B.data ++ "_".data ++ x.data := by
    have := congrArg String.data h
    simpa using this
  have h1 : A.data ++ "_".data = B.data ++ "_".data :=
    List.append_cancel_right hdata
  exact String.ext (List.append_cancel_right h1)

theorem parse_two_containers (t A B x ct pc : String)
    (fA fB : List (String × JsVal))
    (hti : isKeyOfInterest t = true) (hAi : isKeyOfInterest A = true)
    (hBi : isKeyOfInterest B = true) (hxi : isKeyOfInterest x = true)
    (hpc : ¬ pc = "") (hAB : ¬ A = B) (hct : ¬ ct = "System") :
    (dpParse (JsVal.obj [("class", JsVal.str "Device"),
        (t, JsVal.obj [("class", JsVal.str "Tenant"),
          (A, JsVal.obj [("class", JsVal.str ct),
            (x, JsVal.obj (("class", JsVal.str pc) :: fA))]),
          (B, JsVal.obj [("class", JsVal.str ct),
            (x, JsVal.obj (("class", JsVal.str pc) :: fB))])])])).parsedDeclaration =
      JsVal.obj [(ct, JsVal.obj [(t, JsVal.obj [(pc, JsVal.obj
        [(A ++ "_" ++ x, JsVal.obj (fA.filter (fun kv => ¬ (kv.1 = "class")))),
         (B ++ "_" ++ x, JsVal.obj (fB.filter (fun kv => ¬ (kv.1 = "class"))))])])])] := by
  have hderived : ¬ (t = "schemaVersion") ∧ ¬ (t = "class") := by
    simpa [isKeyOfInterest, KEYS_TO_IGNORE] using hti
  have ht2 : ¬ ("class" = t) := fun h => hderived.2 h.symm
  have hAder : ¬ (A = "schemaVersion") ∧ ¬ (A = "class") := by
    simpa [isKeyOfInterest, KEYS_TO_IGNORE] using hAi
  have hA2 : ¬ ("class" = A) := fun h => hAder.2 h.symm
  have hBder : ¬ (B = "schemaVersion") ∧ ¬ (B = "class") := by
    simpa [isKeyOfInterest, KEYS_TO_IGNORE] using hBi
  have hB2 : ¬ ("class" = B) := fun h => hBder.2 h.symm
  have hxder : ¬ (x = "schemaVersion") ∧ ¬ (x = "class") := by
    simpa [isKeyOfInterest, KEYS_TO_IGNORE] using hxi
  have hx2 : ¬ ("class" = x) := fun h => hxder.2 h.symm
  have hBA : ¬ (B = A) := fun h => hAB h.symm
  have hname : ¬ (A ++ "_" ++ x = B ++ "_" ++ x) := fun h => hAB (append_name_inj A B x h)
  have hnameBA : ¬ (B ++ "_" ++ x = A ++ "_" ++ x) := fun h => hname h.symm
  simp [dpParse, getTenants, getKeysOfInterest, keysOf, isKeyOfInterest, KEYS_TO_IGNORE,
    parseTenantStep, parseContainerStep, parsePropertyStep, ensureKey,
    JsVal.index, JsVal.get, JsVal.set, JsVal.modify, JsVal.erase, lookupField, setField,
    jsStrictEqStr, truthy, jsTypeof, asKeyString,
    ht2, hA2, hB2, hx2, hderived.1, hderived.2, hAder.1, hAder.2, hBder.1, hBder.2,
    hxder.1, hxder.2, hpc, hAB, hBA, hct, hname, hnameBA]

/-!
The claims about DeclarationParser.parse.
-/

/-- C3: the claim states that parsing the same declaration object twice yields
identical parsed documents.  The code fails this: the first parse deletes the
class discriminator of the typed VLAN sub-instance from the declaration itself
(the constructor only shallow-copies), so the second parse no longer
recognizes the sub-instance and files it directly under the synthesized name
instead of under its class.  The two outputs differ at the VLAN path. -/
theorem c3_parse_twice_differs :
    ((dpParse (JsVal.obj [("schemaVersion", JsVal.str "1.0.0"), ("class", JsVal.str "Device"),
        ("T", JsVal.obj [("class", JsVal.str "Tenant"),
          ("C", JsVal.obj [("class", JsVal.str "Network"),
            ("x", JsVal.obj [("class", JsVal.str "VLAN"),
              ("tag", JsVal.num 1)])])])])).parsedDeclaration.getPath
        ["Network", "T", "VLAN", "C_x", "tag"] = some (JsVal.num 1)) ∧
    ((dpParse (dpParse (JsVal.obj [("schemaVersion", JsVal.str "1.0.0"),
        ("class", JsVal.str "Device"),
        ("T", JsVal.obj [("class", JsVal.str "Tenant"),
          ("C", JsVal.obj [("class", JsVal.str "Network"),
            ("x", JsVal.obj [("class", JsVal.str "VLAN"),
              ("tag", JsVal.num 1)])])])])).declarationAfter).parsedDeclaration.getPath
        ["Network", "T", "VLAN", "C_x", "tag"] = none) ∧
    ¬ ((dpParse (JsVal.obj [("schemaVersion", JsVal.str "1.0.0"), ("class", JsVal.str "Device"),
        ("T", JsVal.obj [("class", JsVal.str "Tenant"),
          ("C", JsVal.obj [("class", JsVal.str "Network"),
            ("x", JsVal.obj [("class", JsVal.str "VLAN"),
              ("tag", JsVal.num 1)])])])])).parsedDeclaration =
      (dpParse (dpParse (JsVal.obj [("schemaVersion", JsVal.str "1.0.0"),
        ("class", JsVal.str "Device"),
        ("T", JsVal.obj [("class", JsVal.str "Tenant"),
          ("C", JsVal.obj [("class", JsVal.str "Network"),
            ("x", JsVal.obj [("class", JsVal.str "VLAN"),
              ("tag", JsVal.num 1)])])])])).declarationAfter).parsedDeclaration) :=
  ⟨rfl, rfl, fun h =>
    Option.noConfusion (show (some (JsVal.num 1) : Option JsVal) = none from
      (congrArg (fun o => JsVal.getPath o ["Network", "T", "VLAN", "C_x", "tag"]) h))⟩

/-- C8: the claim states that parse does not mutate its input declaration.
The code fails this: parse deletes the class key of each typed sub-instance
through the objects it shares with the caller, so after the call the
declaration of the caller has lost the class of the SelfIp sub-instance and
no longer equals the value passed in.  (DiffHandler.process, in contrast,
deep-clones both inputs before diffing.) -/
theorem c8_parse_mutates_input :
    ((JsVal.obj [("class", JsVal.str "Device"),
        ("T2", JsVal.obj [("class", JsVal.str "Tenant"),
          ("N", JsVal.obj [("class", JsVal.str "Network"),
            ("y", JsVal.obj [("class", JsVal.str "SelfIp"),
              ("address", JsVal.str "1.2.3.4/24")])])])]).getPath
        ["T2", "N", "y", "class"] = some (JsVal.str "SelfIp")) ∧
    ((dpParse (JsVal.obj [("class", JsVal.str "Device"),
        ("T2", JsVal.obj [("class", JsVal.str "Tenant"),
          ("N", JsVal.obj [("class", JsVal.str "Network"),
            ("y", JsVal.obj [("class", JsVal.str "SelfIp"),
              ("address", JsVal.str "1.2.3.4/24")])])])])).declarationAfter.getPath
        ["T2", "N", "y", "class"] = none) ∧
    ¬ ((dpParse (JsVal.obj [("class", JsVal.str "Device"),
        ("T2", JsVal.obj [("class", JsVal.str "Tenant"),
          ("N", JsVal.obj [("class", JsVal.str "Network"),
            ("y", JsVal.obj [("class", JsVal.str "SelfIp"),
              ("address", JsVal.str "1.2.3.4/24")])])])])).declarationAfter =
      JsVal.obj [("class", JsVal.str "Device"),
        ("T2", JsVal.obj [("class", JsVal.str "Tenant"),
          ("N", JsVal.obj [("class", JsVal.str "Network"),
            ("y", JsVal.obj [("class", JsVal.str "SelfIp"),
              ("address", JsVal.str "1.2.3.4/24")])])])]) :=
  ⟨rfl, rfl, fun h =>
    Option.noConfusion (show (none : Option JsVal) = some (JsVal.str "SelfIp") from
      (congrArg (fun o => JsVal.getPath o ["T2", "N", "y", "class"]) h))⟩

/-- C6 counterexample: the claim states that no leaf property bag contains a
class key at any depth.  The bag of the VLAN sub-instance keeps the class of
its nested Interface object, exactly as the worked example in the doc comment
of declarationParser.js shows. -/
theorem c6_counterexample :
    ((dpParse (JsVal.obj [("class", JsVal.str "Device"),
        ("T", JsVal.obj [("class", JsVal.str "Tenant"),
          ("N", JsVal.obj [("class", JsVal.str "Network"),
            ("v", JsVal.obj [("class", JsVal.str "VLAN"), ("tag", JsVal.num 100),
              ("i", JsVal.obj [("class", JsVal.str "Interface"),
                ("tagged", JsVal.bool true)])])])])])).parsedDeclaration.getPath
        ["Network", "T", "VLAN", "N_v"] =
      some (JsVal.obj [("tag", JsVal.num 100),
        ("i", JsVal.obj [("class", JsVal.str "Interface"),
          ("tagged", JsVal.bool true)])])) ∧
    ((dpParse (JsVal.obj [("class", JsVal.str "Device"),
        ("T", JsVal.obj [("class", JsVal.str "Tenant"),
          ("N", JsVal.obj [("class", JsVal.str "Network"),
            ("v", JsVal.obj [("class", JsVal.str "VLAN"), ("tag", JsVal.num 100),
              ("i", JsVal.obj [("class", JsVal.str "Interface"),
                ("tagged", JsVal.bool true)])])])])])).parsedDeclaration.getPath
        ["Network", "T", "VLAN", "N_v", "i", "class"] = some (JsVal.str "Interface")) :=
  ⟨rfl, rfl⟩

/-- C6 amended: for every tenant container holding a typed sub-instance, the
leaf property bag that parse files for the sub-instance contains no class key
at its top level (the discriminator is deleted during grouping); nested
sub-objects of the bag keep theirs. -/
theorem c6_bag_toplevel_class_removed (sv t c k ct pc : String)
    (bagFields : List (String × JsVal))
    (hti : isKeyOfInterest t = true) (hci : isKeyOfInterest c = true)
    (hki : isKeyOfInterest k = true) (hpc : ¬ pc = "") :
    ∃ bag : JsVal,
      (dpParse (JsVal.obj [("schemaVersion", JsVal.str sv), ("class", JsVal.str "Device"),
          (t, JsVal.obj [("class", JsVal.str "Tenant"),
            (c, JsVal.obj [("class", JsVal.str ct),
              (k, JsVal.obj (("class", JsVal.str pc) :: bagFields))])])])).parsedDeclaration.getPath
          [ct, t, pc, if ct = "System" then k else c ++ "_" ++ k] = some bag ∧
      bag.get "class" = none := by
  refine ⟨JsVal.obj (bagFields.filter (fun kv => ¬ (kv.1 = "class"))), ?_, ?_⟩
  · rw [parse_single_container sv t c k ct pc bagFields hti hci hki hpc]
    simp [JsVal.getPath, JsVal.get, lookupField]
  · simpa [JsVal.get] using lookupField_filter_self_none bagFields "class"

/-- C6 amended witness: the VLAN bag of a concrete declaration carries no
top-level class key. -/
theorem c6_bag_toplevel_class_removed_witness :
    ∃ bag : JsVal,
      (dpParse (JsVal.obj [("schemaVersion", JsVal.str "1.0.0"), ("class", JsVal.str "Device"),
          ("T", JsVal.obj [("class", JsVal.str "Tenant"),
            ("N", JsVal.obj [("class", JsVal.str "Network"),
              ("v", JsVal.obj (("class", JsVal.str "VLAN")
                :: [("tag", JsVal.num 100)]))])])])).parsedDeclaration.getPath
          ["Network", "T", "VLAN", if ("Network" : String) = "System" then "v" else "N" ++ "_" ++ "v"] =
        some bag ∧
      bag.get "class" = none :=
  c6_bag_toplevel_class_removed "1.0.0" "T" "N" "v" "Network" "VLAN"
    [("tag", JsVal.num 100)] (by decide) (by decide) (by decide) (by decide)

/-- C7: parse files a typed sub-instance under the synthesized name that
joins the container name and the property key with an underscore, except
under a System container where the raw property key is used; and two
containers A and B of one tenant holding the same sub-instance property x
yield the two distinct instance names A_x and B_x, both present. -/
theorem c7_instance_name_synthesis (sv t c k ct pc : String)
    (bagFields : List (String × JsVal))
    (t2 A B x ct2 pc2 : String) (fA fB : List (String × JsVal))
    (hti : isKeyOfInterest t = true) (hci : isKeyOfInterest c = true)
    (hki : isKeyOfInterest k = true) (hpc : ¬ pc = "")
    (ht2i : isKeyOfInterest t2 = true) (hAi : isKeyOfInterest A = true)
    (hBi : isKeyOfInterest B = true) (hxi : isKeyOfInterest x = true)
    (hpc2 : ¬ pc2 = "") (hAB : ¬ A = B) (hct2 : ¬ ct2 = "System") :
    ((dpParse (JsVal.obj [("schemaVersion", JsVal.str sv), ("class", JsVal.str "Device"),
        (t, JsVal.obj [("class", JsVal.str "Tenant"),
          (c, JsVal.obj [("class", JsVal.str ct),
            (k, JsVal.obj (("class", JsVal.str pc) :: bagFields))])])])).parsedDeclaration.getPath
        [ct, t, pc, if ct = "System" then k else c ++ "_" ++ k] =
      some (JsVal.obj (bagFields.filter (fun kv => ¬ (kv.1 = "class"))))) ∧
    ((dpParse (JsVal.obj [("class", JsVal.str "Device"),
        (t2, JsVal.obj [("class", JsVal.str "Tenant"),
          (A, JsVal.obj [("class", JsVal.str ct2),
            (x, JsVal.obj (("class", JsVal.str pc2) :: fA))]),
          (B, JsVal.obj [("class", JsVal.str ct2),
            (x, JsVal.obj (("class", JsVal.str pc2) :: fB))])])])).parsedDeclaration.getPath
        [ct2, t2, pc2, A ++ "_" ++ x] =
      some (JsVal.obj (fA.filter (fun kv => ¬ (kv.1 = "class"))))) ∧
    ((dpParse (JsVal.obj [("class", JsVal.str "Device"),
        (t2, JsVal.obj [("class", JsVal.str "Tenant"),
          (A, JsVal.obj [("class", JsVal.str ct2),
            (x, JsVal.obj (("class", JsVal.str pc2) :: fA))]),
          (B, JsVal.obj [("class", JsVal.str ct2),
            (x, JsVal.obj (("class", JsVal.str pc2) :: fB))])])])).parsedDeclaration.getPath
        [ct2, t2, pc2, B ++ "_" ++ x] =
      some (JsVal.obj (fB.filter (fun kv => ¬ (kv.1 = "class"))))) ∧
    ¬ (A ++ "_" ++ x = B ++ "_" ++ x) := by
  have hname : ¬ (A ++ "_" ++ x = B ++ "_" ++ x) := fun h => hAB (append_name_inj A B x h)
  have hnameBA : ¬ (B ++ "_" ++ x = A ++ "_" ++ x) := fun h => hname h.symm
  refine ⟨?_, ?_, ?_, hname⟩
  · rw [parse_single_container sv t c k ct pc bagFields hti hci hki hpc]
    simp [JsVal.getPath, JsVal.get, lookupField]
  · rw [parse_two_containers t2 A B x ct2 pc2 fA fB ht2i hAi hBi hxi hpc2 hAB hct2]
    simp [JsVal.getPath, JsVal.get, lookupField, hnameBA]
  · rw [parse_two_containers t2 A B x ct2 pc2 fA fB ht2i hAi hBi hxi hpc2 hAB hct2]
    simp [JsVal.getPath, JsVal.get, lookupField, hname, hnameBA]

/-- C7 witness: concrete instantiations of both naming families, one System
container using the raw key and one tenant with two Network containers. -/
theorem c7_instance_name_synthesis_witness :
    ((dpParse (JsVal.obj [("schemaVersion", JsVal.str "1.0.0"), ("class", JsVal.str "Device"),
        ("Common", JsVal.obj [("class", JsVal.str "Tenant"),
          ("mySystem", JsVal.obj [("class", JsVal.str "System"),
            ("myDns", JsVal.obj (("class", JsVal.str "DNS")
              :: [("search", JsVal.str "f5.com")]))])])])).parsedDeclaration.getPath
        ["System", "Common", "DNS",
          if ("System" : String) = "System" then "myDns" else "mySystem" ++ "_" ++ "myDns"] =
      some (JsVal.obj [("search", JsVal.str "f5.com")])) ∧
    ((dpParse (JsVal.obj [("class", JsVal.str "Device"),
        ("T1", JsVal.obj [("class", JsVal.str "Tenant"),
          ("netA", JsVal.obj [("class", JsVal.str "Network"),
            ("vlan", JsVal.obj (("class", JsVal.str "VLAN") :: [("tag", JsVal.num 1)]))]),
          ("netB", JsVal.obj [("class", JsVal.str "Network"),
            ("vlan", JsVal.obj (("class", JsVal.str "VLAN")
              :: [("tag", JsVal.num 2)]))])])])).parsedDeclaration.getPath
        ["Network", "T1", "VLAN", "netA" ++ "_" ++ "vlan"] =
      some (JsVal.obj [("tag", JsVal.num 1)])) ∧
    ((dpParse (JsVal.obj [("class", JsVal.str "Device"),
        ("T1", JsVal.obj [("class", JsVal.str "Tenant"),
          ("netA", JsVal.obj [("class", JsVal.str "Network"),
            ("vlan", JsVal.obj (("class", JsVal.str "VLAN") :: [("tag", JsVal.num 1)]))]),
          ("netB", JsVal.obj [("class", JsVal.str "Network"),
            ("vlan", JsVal.obj (("class", JsVal.str "VLAN")
              :: [("tag", JsVal.num 2)]))])])])).parsedDeclaration.getPath
        ["Network", "T1", "VLAN", "netB" ++ "_" ++ "vlan"] =
      some (JsVal.obj [("tag", JsVal.num 2)])) ∧
    ¬ (("netA" : String) ++ "_" ++ "vlan" = "netB" ++ "_" ++ "vlan") :=
  c7_instance_name_synthesis "1.0.0" "Common" "mySystem" "myDns" "System" "DNS"
    [("search", JsVal.str "f5.com")]
    "T1" "netA" "netB" "vlan" "Network" "VLAN"
    [("tag", JsVal.num 1)] [("tag", JsVal.num 2)]
    (by decide) (by decide) (by decide) (by decide)
    (by decide) (by decide) (by decide) (by decide)
    (by decide) (by decide) (by decide)

/-!
The claims about ConfigManager.get.
-/

/-- C4: the claim states that an existing snapshot entry for a db variable is
never overwritten, for every value including falsy ones.  The backfill in the
commit stage of ConfigManager.get tests falsiness rather than absence, so a
stored empty-string value for K is overwritten by the value read from the
device (first two conjuncts), while the backfill of a genuinely missing K
works as described (last conjunct, run against an empty snapshot store). -/
theorem c4_snapshot_falsy_overwritten :
    (((storeGet [("m1", JsVal.obj [("Common", JsVal.obj [("DbVariables",
          JsVal.obj [("K", JsVal.str "")])])])] "m1").getD JsVal.undef).getPath
        ["Common", "DbVariables", "K"] = some (JsVal.str "")) ∧
    (((storeGet (configManagerGet (⟨"zzqq", "zzqq1", "zzqq2"⟩ : RadiusNames)
        [⟨"/tm/sys/db", some "DbVariables",
          some [⟨"value", none, none, none, false, none, none⟩],
          [], true, false, none, none, none⟩]
        (⟨Except.ok (JsVal.arr []), Except.ok ⟨"m1", "host1"⟩,
          Except.ok (JsVal.arr [JsVal.obj [("hostname", JsVal.str "host1"),
            ("name", JsVal.str "dev1")]]),
          [Except.ok (JsVal.arr [JsVal.obj [("name", JsVal.str "K"),
            ("value", JsVal.str "newval")]])], []⟩ : CMEnv)
        (JsVal.obj [("Common", JsVal.obj [("dbvars", JsVal.obj
          [("class", JsVal.str "DbVariables"), ("K", JsVal.str "newval")])])])
        ⟨none, none⟩
        [("m1", JsVal.obj [("Common", JsVal.obj [("DbVariables",
          JsVal.obj [("K", JsVal.str "")])])])]).2.1 "m1").getD JsVal.undef).getPath
        ["Common", "DbVariables", "K"] = some (JsVal.str "newval")) ∧
    (((storeGet (configManagerGet (⟨"zzqq", "zzqq1", "zzqq2"⟩ : RadiusNames)
        [⟨"/tm/sys/db", some "DbVariables",
          some [⟨"value", none, none, none, false, none, none⟩],
          [], true, false, none, none, none⟩]
        (⟨Except.ok (JsVal.arr []), Except.ok ⟨"m1", "host1"⟩,
          Except.ok (JsVal.arr [JsVal.obj [("hostname", JsVal.str "host1"),
            ("name", JsVal.str "dev1")]]),
          [Except.ok (JsVal.arr [JsVal.obj [("name", JsVal.str "K"),
            ("value", JsVal.str "newval")]])], []⟩ : CMEnv)
        (JsVal.obj [("Common", JsVal.obj [("dbvars", JsVal.obj
          [("class", JsVal.str "DbVariables"), ("K", JsVal.str "newval")])])])
        ⟨none, none⟩ []).2.1 "m1").getD JsVal.undef).getPath
        ["Common", "DbVariables", "K"] = some (JsVal.str "newval")) :=
  ⟨rfl, rfl, rfl⟩

/-- C5: any failing device read makes ConfigManager.get reject with the
underlying error and leaves the task state and the snapshot store untouched.
The first conjunct is the frame property (an error outcome implies both are
returned unchanged); the remaining conjuncts propagate each read failure in
chain order: the provisioning read, the device-info read, the cluster device
read, the config-item reads and the reference reads. -/
theorem c5_read_failure_aborts (radius : RadiusNames) (cfg : List ConfigItem)
    (env : CMEnv) (declaration : JsVal) (st : CMState)
    (store : List (String × JsVal)) :
    (∀ st2 store2 e,
      configManagerGet radius cfg env declaration st store = (st2, store2, Except.error e) →
        st2 = st ∧ store2 = store) ∧
    (∀ e, env.provision = Except.error e →
      configManagerGet radius cfg env declaration st store = (st, store, Except.error e)) ∧
    (∀ e p, env.provision = Except.ok p → env.deviceInfo = Except.error e →
      configManagerGet radius cfg env declaration st store = (st, store, Except.error e)) ∧
    (∀ e p di, env.provision = Except.ok p → env.deviceInfo = Except.ok di →
      env.cmDevices = Except.error e →
      configManagerGet radius cfg env declaration st store = (st, store, Except.error e)) ∧
    (∀ e p di cm tm, env.provision = Except.ok p → env.deviceInfo = Except.ok di →
      env.cmDevices = Except.ok cm → getTokenMap di cm = Except.ok tm →
      collectItemReads cfg (provisionedNames p) env.itemResults = Except.error e →
      configManagerGet radius cfg env declaration st store = (st, store, Except.error e)) ∧
    (∀ e p di cm tm results, env.provision = Except.ok p → env.deviceInfo = Except.ok di →
      env.cmDevices = Except.ok cm → getTokenMap di cm = Except.ok tm →
      collectItemReads cfg (provisionedNames p) env.itemResults = Except.ok results →
      collectRefReads
        (processResults radius (getDbVarsOfInterest st.currentConfig declaration)
          cfg results).referenceInfo.length env.refResults = Except.error e →
      configManagerGet radius cfg env declaration st store = (st, store, Except.error e)) := by
  refine ⟨?_, ?_, ?_, ?_, ?_, ?_⟩
  · intro st2 store2 e h
    simp only [configManagerGet] at h
    repeat' split at h
    all_goals first
      | (injection h with h1 h23
         injection h23 with h2 h3
         exact ⟨h1.symm, h2.symm⟩)
      | simp_all
  · intro e hp
    simp [configManagerGet, hp]
  · intro e p hp hd
    simp [configManagerGet, hp, hd]
  · intro e p di hp hd hcm
    simp [configManagerGet, hp, hd, hcm]
  · intro e p di cm tm hp hd hcm htm hcoll
    simp [configManagerGet, hp, hd, hcm, htm, hcoll]
  · intro e p di cm tm results hp hd hcm htm hcoll href
    simp [configManagerGet, hp, hd, hcm, htm, hcoll, href]

/-- C5 witness: a failing provisioning read aborts a concrete run with its
error and returns the state and store unchanged. -/
theorem c5_read_failure_aborts_witness :
    configManagerGet (⟨"zzqq", "zzqq1", "zzqq2"⟩ : RadiusNames) []
        (⟨Except.error "network down", Except.ok ⟨"m1", "host1"⟩,
          Except.ok (JsVal.arr []), [], []⟩ : CMEnv)
        (JsVal.obj []) ⟨none, none⟩
        [("m1", JsVal.obj [("Common", JsVal.obj [])])] =
      (⟨none, none⟩, [("m1", JsVal.obj [("Common", JsVal.obj [])])],
        Except.error "network down") :=
  (c5_read_failure_aborts (⟨"zzqq", "zzqq1", "zzqq2"⟩ : RadiusNames) []
      (⟨Except.error "network down", Except.ok ⟨"m1", "host1"⟩,
        Except.ok (JsVal.arr []), [], []⟩ : CMEnv)
      (JsVal.obj []) ⟨none, none⟩
      [("m1", JsVal.obj [("Common", JsVal.obj [])])]).2.1 "network down" rfl

/-- C10: token resolution during ConfigManager.get filters the cluster device
list by the hostname of the managed device and requires exactly one match;
for every device list whose match count is not one, including zero, get
rejects with the fixed message and returns the task state and the snapshot
store unchanged, so no current state is produced. -/
theorem c10_token_resolution_requires_unique (radius : RadiusNames)
    (cfg : List ConfigItem) (env : CMEnv) (declaration : JsVal) (st : CMState)
    (store : List (String × JsVal)) (p : JsVal) (di : DeviceInfo) (devs : List JsVal)
    (hp : env.provision = Except.ok p)
    (hd : env.deviceInfo = Except.ok di)
    (hcm : env.cmDevices = Except.ok (JsVal.arr devs))
    (hcount : ¬ (devs.filter
      (fun d => jsStrictEqStr (d.index "hostname") di.hostname)).length = 1) :
    configManagerGet radius cfg env declaration st store =
      (st, store, Except.error "Too many devices match our name") := by
  have htok : getTokenMap di (JsVal.arr devs) =
      Except.error "Too many devices match our name" := by
    simp only [getTokenMap]
    rcases hfil : devs.filter
        (fun d => jsStrictEqStr (d.index "hostname") di.hostname) with _ | ⟨d1, _ | ⟨d2, rest⟩⟩
    · rw [hfil]
    · exact absurd (by simp [hfil]) hcount
    · rw [hfil]
  simp [configManagerGet, hp, hd, hcm, htok]

/-- C10 witness: an empty cluster device list rejects a concrete run. -/
theorem c10_token_resolution_requires_unique_witness :
    configManagerGet (⟨"zzqq", "zzqq1", "zzqq2"⟩ : RadiusNames) []
        (⟨Except.ok (JsVal.arr []), Except.ok ⟨"m1", "host1"⟩,
          Except.ok (JsVal.arr []), [], []⟩ : CMEnv)
        (JsVal.obj []) ⟨none, none⟩ [] =
      (⟨none, none⟩, [], Except.error "Too many devices match our name") :=
  c10_token_resolution_requires_unique (⟨"zzqq", "zzqq1", "zzqq2"⟩ : RadiusNames) []
    (⟨Except.ok (JsVal.arr []), Except.ok ⟨"m1", "host1"⟩,
      Except.ok (JsVal.arr []), [], []⟩ : CMEnv)
    (JsVal.obj []) ⟨none, none⟩ [] (JsVal.arr []) ⟨"m1", "host1"⟩ []
    rfl rfl rfl (by decide)

/-!
Supporting lemmas for the reference-splice claim.
-/

theorem lookupField_filter_none (fs : List (String × JsVal)) (key : String)
    (pr : String × JsVal → Bool) (h : lookupField fs key = none) :
    lookupField (fs.filter pr) key = none := by
  induction fs with
  | nil => simp [lookupField]
  | cons hd tl ih =>
    obtain ⟨k1, v1⟩ := hd
    by_cases hk : k1 = key
    · simp [lookupField, hk] at h
    · simp only [lookupField, if_neg hk] at h
      by_cases hp : pr (k1, v1) = true
      · simpa [List.filter, hp, lookupField, hk] using ih h
      · simpa [List.filter, hp] using ih h

theorem lookupField_filter_key_false (fs : List (String × JsVal)) (key : String)
    (pr : String × JsVal → Bool) (h : ∀ v, pr (key, v) = false) :
    lookupField (fs.filter pr) key = none := by
  induction fs with
  | nil => simp [lookupField]
  | cons hd tl ih =>
    obtain ⟨k1, v1⟩ := hd
    by_cases hk : k1 = key
    · subst hk
      simpa [List.filter, h v1] using ih
    · by_cases hp : pr (k1, v1) = true
      · simpa [List.filter, hp, lookupField, hk] using ih
      · simpa [List.filter, hp] using ih

theorem erase_obj_no_key (gs : List (String × JsVal)) (k key : String)
    (h : lookupField gs key = none) :
    ∃ gs2, (JsVal.obj gs).erase k = JsVal.obj gs2 ∧ lookupField gs2 key = none := by
  refine ⟨gs.filter (fun kv => ¬ (kv.1 = k)), rfl, ?_⟩
  exact lookupField_filter_none gs key _ h

theorem setPathCreating_obj_no_key (gs : List (String × JsVal)) (parts : List String)
    (v : JsVal) (key : String) (hhd : ¬ (parts.headD "" = key) ∨ parts = []) :
    ∃ gs2, setPathCreating (JsVal.obj gs) parts v = JsVal.obj gs2 ∧
      lookupField gs2 key = lookupField gs key := by
  match parts with
  | [] => exact ⟨gs, rfl, rfl⟩
  | [k] =>
    have hk : ¬ (k = key) := by
      rcases hhd with h | h
      · simpa using h
      · exact absurd h (by simp)
    exact ⟨setField gs k v, rfl, lookupField_setField_ne _ _ _ _ (fun he => hk he.symm)⟩
  | k :: k2 :: rest =>
    have hk : ¬ (k = key) := by
      rcases hhd with h | h
      · simpa using h
      · exact absurd h (by simp)
    have hkk : ¬ (key = k) := fun he => hk he.symm
    by_cases htr : truthy ((JsVal.obj gs).index k) = true
    · refine ⟨setField gs k
        (setPathCreating ((JsVal.obj gs).index k) (k2 :: rest) v), ?_, ?_⟩
      · simp only [setPathCreating, htr, if_pos, JsVal.modify, JsVal.set]
      · exact lookupField_setField_ne _ _ _ _ hkk
    · refine ⟨setField (setField gs k (JsVal.obj [])) k
        (setPathCreating ((JsVal.obj (setField gs k (JsVal.obj []))).index k) (k2 :: rest) v), ?_, ?_⟩
      · simp [setPathCreating, htr, JsVal.modify, JsVal.set]
      · rw [lookupField_setField_ne _ _ _ _ hkk, lookupField_setField_ne _ _ _ _ hkk]

theorem foldl_transform_no_key (orig : JsVal) (ts : List CfgTransform) (key : String)
    (havoid : ts.all (fun tr =>
      (¬ (tr.id = key)) &&
      (match tr.newId with
       | some nid2 => ¬ (nid2 = key)
       | none => true)) = true) :
    ∀ gs, lookupField gs key = none →
      ∃ gs2, ts.foldl (applyTransformEntry orig) (JsVal.obj gs) = JsVal.obj gs2 ∧
        lookupField gs2 key = none := by
  induction ts with
  | nil => intro gs h; exact ⟨gs, rfl, h⟩
  | cons tr rest ih =>
    intro gs h
    simp only [List.all_cons, Bool.and_eq_true] at havoid
    have hrest := List.all_eq_true.mpr (fun x hx =>
      (List.all_eq_true.mp havoid.2) x hx)
    have htr := havoid.1
    rw [List.foldl_cons]
    have hdst : ¬ ((tr.newId.getD tr.id) = key) := by
      rcases htr with ⟨h1, h2⟩
      cases hn : tr.newId with
      | none =>
        simpa [hn] using (by simpa using h1)
      | some nid2 =>
        rw [hn] at h2
        simpa [hn] using (by simpa using h2)
    have hstep : applyTransformEntry orig (JsVal.obj gs) tr =
        JsVal.obj (setField gs (tr.newId.getD tr.id)
          (jsOr (orig.index tr.id) ((orig.index "0").index tr.id))) := by
      cases hn : tr.newId <;> simp [applyTransformEntry, hn, JsVal.set]
    rw [hstep]
    exact ih hrest _ (by
      rw [lookupField_setField_ne _ _ _ _ (fun he => hdst he.symm)]
      exact h)

theorem truthStage_no_key (p : CfgProperty) (key : String) (gs : List (String × JsVal))
    (hkid : ¬ key = p.id) (h : lookupField gs key = none) :
    ∃ g, truthStage p (JsVal.obj gs) = JsVal.obj g ∧ lookupField g key = none := by
  unfold truthStage
  split
  · split
    · exact ⟨setField gs p.id (mapTruth (JsVal.obj gs) p), rfl,
        by rw [lookupField_setField_ne _ _ _ _ hkid]; exact h⟩
    · exact ⟨gs, rfl, h⟩
  · exact ⟨gs, rfl, h⟩

theorem stripCommonStage_no_key (p : CfgProperty) (key : String)
    (gs : List (String × JsVal)) (hkid : ¬ key = p.id)
    (h : lookupField gs key = none) :
    ∃ g, stripCommonStage p (JsVal.obj gs) = JsVal.obj g ∧ lookupField g key = none := by
  unfold stripCommonStage
  cases hidx : (JsVal.obj gs).index p.id with
  | str s =>
    by_cases hs : s.startsWith "/Common/" = true
    · refine ⟨setField gs p.id (JsVal.str (s.drop 8)), ?_, ?_⟩
      · simp only [if_pos hs]
        rfl
      · rw [lookupField_setField_ne _ _ _ _ hkid]; exact h
    · exact ⟨gs, by simp [hs], h⟩
  | num n => exact ⟨gs, rfl, h⟩
  | bool b => exact ⟨gs, rfl, h⟩
  | null => exact ⟨gs, rfl, h⟩
  | undef => exact ⟨gs, rfl, h⟩
  | arr es => exact ⟨gs, rfl, h⟩
  | obj fs2 => exact ⟨gs, rfl, h⟩

theorem transformStage_no_key (p : CfgProperty) (key : String)
    (gs : List (String × JsVal)) (hkid : ¬ key = p.id)
    (htr : (match p.transform with
      | some ts => ts.all (fun tr =>
          (¬ (tr.id = key)) &&
          (match tr.newId with
           | some nid2 => ¬ (nid2 = key)
           | none => true))
      | none => true) = true)
    (h : lookupField gs key = none) :
    ∃ g, transformStage p (JsVal.obj gs) = JsVal.obj g ∧ lookupField g key = none := by
  unfold transformStage
  cases hts : p.transform with
  | none => exact ⟨gs, rfl, h⟩
  | some ts =>
    rw [hts] at htr
    have herase : (JsVal.obj gs).erase p.id =
        JsVal.obj (gs.filter (fun kv => ¬ (kv.1 = p.id))) := rfl
    have hnone : lookupField (gs.filter (fun kv => ¬ (kv.1 = p.id))) key = none :=
      lookupField_filter_none gs key _ h
    obtain ⟨g2, hg2, hl2⟩ := foldl_transform_no_key
      (objAssignToEmpty ((JsVal.obj gs).index p.id)) ts key htr _ hnone
    refine ⟨g2, ?_, hl2⟩
    simpa [herase] using hg2

theorem mapNewId_no_key (key id nid : String) (gs : List (String × JsVal))
    (hkid : ¬ key = id) (hn1 : ¬ (nid = key))
    (hn2 : ¬ ((strSplitOn nid ".").headD "" = key))
    (h : lookupField gs key = none) :
    ∃ g, mapNewId (JsVal.obj gs) id nid = JsVal.obj g ∧ lookupField g key = none := by
  unfold mapNewId
  split
  · obtain ⟨g2, hg2, hl2⟩ := setPathCreating_obj_no_key gs (strSplitOn nid ".")
      ((JsVal.obj gs).index id) key (Or.inl hn2)
    rw [hg2]
    refine ⟨g2.filter (fun kv => ¬ (kv.1 = id)), rfl, ?_⟩
    exact lookupField_filter_none g2 key _ (hl2.trans h)
  · refine ⟨(setField gs nid ((JsVal.obj gs).index id)).filter
      (fun kv => ¬ (kv.1 = id)), rfl, ?_⟩
    refine lookupField_filter_none _ key _ ?_
    rw [lookupField_setField_ne _ _ _ _ (fun he => hn1 he.symm)]
    exact h

theorem renameStage_no_key (p : CfgProperty) (key : String)
    (gs : List (String × JsVal)) (hkid : ¬ key = p.id)
    (hnew : (match p.newId with
      | some nid => (¬ (nid = key)) && (¬ ((strSplitOn nid ".").headD "" = key))
      | none => true) = true)
    (h : lookupField gs key = none) :
    ∃ g, renameStage p (JsVal.obj gs) = JsVal.obj g ∧ lookupField g key = none := by
  unfold renameStage
  cases hn : p.newId with
  | none => exact ⟨gs, rfl, h⟩
  | some nid =>
    rw [hn] at hnew
    simp only [Bool.and_eq_true, decide_eq_true_eq] at hnew
    exact mapNewId_no_key key p.id nid gs hkid hnew.1 hnew.2 h

theorem mapPropertyStep_no_key (p : CfgProperty) (key : String)
    (gs : List (String × JsVal))
    (h1 : ¬ (p.id = key))
    (hnew : (match p.newId with
      | some nid => (¬ (nid = key)) && (¬ ((strSplitOn nid ".").headD "" = key))
      | none => true) = true)
    (htr : (match p.transform with
      | some ts => ts.all (fun tr =>
          (¬ (tr.id = key)) &&
          (match tr.newId with
           | some nid2 => ¬ (nid2 = key)
           | none => true))
      | none => true) = true)
    (h : lookupField gs key = none) :
    ∃ g, mapPropertyStep (JsVal.obj gs) p = JsVal.obj g ∧ lookupField g key = none := by
  have hkid : ¬ key = p.id := fun he => h1 he.symm
  unfold mapPropertyStep
  obtain ⟨g1, hg1, hl1⟩ := truthStage_no_key p key gs hkid h
  rw [hg1]
  by_cases hiu : ¬ isUndef ((JsVal.obj g1).index p.id) = true
  · rw [if_pos hiu]
    obtain ⟨g2, hg2, hl2⟩ := stripCommonStage_no_key p key g1 hkid hl1
    rw [hg2]
    obtain ⟨g3, hg3, hl3⟩ := transformStage_no_key p key g2 hkid htr hl2
    rw [hg3]
    exact renameStage_no_key p key g3 hkid hnew hl3
  · rw [if_neg hiu]
    cases hd : p.defaultWhenOmitted with
    | none => exact ⟨g1, rfl, hl1⟩
    | some dflt =>
      show ∃ g, renameStage p ((JsVal.obj g1).set p.id dflt) = JsVal.obj g ∧
        lookupField g key = none
      have hset : (JsVal.obj g1).set p.id dflt = JsVal.obj (setField g1 p.id dflt) := rfl
      rw [hset]
      refine renameStage_no_key p key _ hkid hnew ?_
      rw [lookupField_setField_ne _ _ _ _ hkid]
      exact hl1

theorem foldl_mapPropertyStep_no_key (ps : List CfgProperty) (key : String)
    (havoid : propsAvoidKey key ps = true) :
    ∀ gs, lookupField gs key = none →
      ∃ g, ps.foldl mapPropertyStep (JsVal.obj gs) = JsVal.obj g ∧
        lookupField g key = none := by
  induction ps with
  | nil => intro gs h; exact ⟨gs, rfl, h⟩
  | cons p rest ih =>
    intro gs h
    unfold propsAvoidKey at havoid
    have hall := List.all_eq_true.mp havoid
    have hp := hall p (List.mem_cons_self _ _)
    have hrest : propsAvoidKey key rest = true := by
      unfold propsAvoidKey
      exact List.all_eq_true.mpr (fun x hx => hall x (List.mem_cons_of_mem _ hx))
    simp only [Bool.and_eq_true, decide_eq_true_eq] at hp
    obtain ⟨g1, hg1, hl1⟩ := mapPropertyStep_no_key p key gs hp.1
      (by
        have h2 := hp.2.1
        cases hn : p.newId with
        | none => simp
        | some nid =>
          rw [hn] at h2
          simpa using h2)
      (by
        have h3 := hp.2.2
        cases ht : p.transform with
        | none => simp
        | some ts =>
          rw [ht] at h3
          simpa using h3) h
    rw [List.foldl_cons, hg1]
    exact ih hrest g1 hl1

theorem filterMap_eq_single {α : Type} (f : String → Option α) (l : List String)
    (k0 : String) (hmem : k0 ∈ l) (hnd : l.Nodup)
    (hnone : ∀ k, ¬ k = k0 → f k = none) :
    l.filterMap f = (f k0).toList := by
  induction l with
  | nil => cases hmem
  | cons k rest ih =>
    rcases List.mem_cons.mp hmem with he | hm
    · have hk0 : k = k0 := he.symm
      subst hk0
      have hnotin : k ∉ rest := (List.nodup_cons.mp hnd).1
      have hrest : rest.filterMap f = [] := by
        rw [List.filterMap_eq_nil_iff]
        intro a ha
        exact hnone a (fun hh => hnotin (hh ▸ ha))
      cases hf : f k with
      | none => simp [List.filterMap_cons, hf, hrest]
      | some a => simp [List.filterMap_cons, hf, hrest]
    · have hk : ¬ k = k0 := by
        intro he2
        exact (List.nodup_cons.mp hnd).1 (he2 ▸ hm)
      rw [List.filterMap_cons, hnone k hk]
      exact ih hm (List.nodup_cons.mp hnd).2

/-- C9: for a descriptor declaring fooReference in its references map and a
retrieved instance whose raw value carries a truthy fooReference.link, the
instance stored in the current state produced by ConfigManager.get exposes
the property foo holding the separately fetched and re-mapped reference
array (each entry cleaned by removeUnusedKeys and truth-mapped over the
reference properties), and carries no fooReference key.  The descriptor is
arbitrary apart from not reintroducing fooReference through its property
mappings and not naming one of the four specially patched classes. -/
theorem c9_reference_splice (radius : RadiusNames) (pathStr C nm : String)
    (ps refProps : List CfgProperty) (rfields : List (String × JsVal))
    (linkObj : JsVal) (refItems : List JsVal) (pv : JsVal) (di : DeviceInfo)
    (devs : List JsVal) (dev0 : JsVal) (declaration : JsVal) (st : CMState)
    (store : List (String × JsVal))
    (hdev : devs.filter (fun d => jsStrictEqStr (d.index "hostname") di.hostname) = [dev0])
    (hname : lookupField rfields "name" = some (JsVal.str nm))
    (hnm : nm.startsWith "/Common/" = false)
    (hlink : lookupField rfields "fooReference" = some linkObj)
    (hlt : truthy (linkObj.index "link") = true)
    (hnd : (rfields.map Prod.fst).Nodup)
    (havoid : propsAvoidKey "fooReference" ps = true)
    (hC1 : ¬ C = "RemoteAuthRole") (hC2 : ¬ C = "SelfIp")
    (hC3 : ¬ C = "DbVariables") (hC4 : ¬ C = "Authentication") :
    ((configManagerGet radius
        [⟨pathStr, some C, some ps, [("fooReference", refProps)],
          false, false, none, none, none⟩]
        (⟨Except.ok pv, Except.ok di, Except.ok (JsVal.arr devs),
          [Except.ok (JsVal.arr [JsVal.obj rfields])],
          [Except.ok (JsVal.arr refItems)]⟩ : CMEnv)
        declaration st store).2.2 = Except.ok ()) ∧
    ∃ inst : JsVal,
      (((configManagerGet radius
          [⟨pathStr, some C, some ps, [("fooReference", refProps)],
            false, false, none, none, none⟩]
          (⟨Except.ok pv, Except.ok di, Except.ok (JsVal.arr devs),
            [Except.ok (JsVal.arr [JsVal.obj rfields])],
            [Except.ok (JsVal.arr refItems)]⟩ : CMEnv)
          declaration st store).1.currentConfig.getD JsVal.undef).getPath
            ["Common", C, nm] = some inst) ∧
      inst.get "foo" = some (JsVal.arr (refItems.map (mapReferenceItem refProps))) ∧
      inst.get "fooReference" = none := by
  have htok : getTokenMap di (JsVal.arr devs) =
      Except.ok ⟨di.hostname, asKeyString (dev0.index "name")⟩ := by
    simp [getTokenMap, hdev]
  have hclean : lookupField (rfields.filter (fun kv =>
      ¬ (strEndsWith kv.1 "Reference") &&
      ¬ ((if (false : Bool) = true then ["kind", "selfLink", "name"]
          else ["kind", "selfLink"]).contains kv.1))) "fooReference" = none :=
    lookupField_filter_key_false _ _ _ (fun v => rfl)
  obtain ⟨gs, hgs, hgl⟩ := foldl_mapPropertyStep_no_key ps "fooReference" havoid _ hclean
  have hmap : mapProperties
      (⟨pathStr, some C, some ps, [("fooReference", refProps)],
        false, false, none, none, none⟩ : ConfigItem)
      (removeUnusedKeys (JsVal.obj rfields) false) = JsVal.obj gs := hgs
  have hnameval : (JsVal.obj rfields).index "name" = JsVal.str nm := by
    simp [JsVal.index, JsVal.get, hname]
  have hlinkval : (JsVal.obj rfields).index "fooReference" = linkObj := by
    simp [JsVal.index, JsVal.get, hlink]
  have hrefs : getReferencedPaths
      (⟨pathStr, some C, some ps, [("fooReference", refProps)],
        false, false, none, none, none⟩ : ConfigItem)
      (JsVal.obj rfields) = [⟨"foo", C, nm, refProps⟩] := by
    unfold getReferencedPaths
    have hks : keysOf (JsVal.obj rfields) = rfields.map Prod.fst := rfl
    rw [hks, filterMap_eq_single _ _ "fooReference"
      (lookupField_mem_keys rfields "fooReference" linkObj hlink) hnd
      (fun k hk => by
        have hne : ¬ ("fooReference" = k) := fun he => hk he.symm
        simp [assocFind, hne])]
    have hTrim : trimReference "fooReference" = "foo" := rfl
    simp [assocFind, hlinkval, hlt, hTrim, hnameval, asKeyString]
  have hacc : processResults radius (getDbVarsOfInterest st.currentConfig declaration)
      [⟨pathStr, some C, some ps, [("fooReference", refProps)],
        false, false, none, none, none⟩]
      [some (JsVal.arr [JsVal.obj rfields])] =
      ⟨JsVal.obj [(C, JsVal.obj [(nm, JsVal.obj gs)])],
        [⟨"foo", C, nm, refProps⟩]⟩ := by
    simp [processResults, processOneResult, processArrayItem, shouldIgnore,
      hmap, hrefs, hname, hnm, hC1, hC2, hC3, hC4,
      JsVal.modify, JsVal.set, JsVal.index, JsVal.get, lookupField, setField,
      truthy, asKeyString]
  have hsplice : spliceReference (JsVal.obj [(C, JsVal.obj [(nm, JsVal.obj gs)])])
      (⟨"foo", C, nm, refProps⟩, JsVal.arr refItems) =
      JsVal.obj [(C, JsVal.obj [(nm,
        JsVal.obj (setField gs "foo" (JsVal.arr (refItems.map (mapReferenceItem refProps)))))])] := by
    simp [spliceReference, JsVal.modify, JsVal.set, JsVal.index, JsVal.get,
      lookupField, setField]
  have hrun1 : (configManagerGet radius
      [⟨pathStr, some C, some ps, [("fooReference", refProps)],
        false, false, none, none, none⟩]
      (⟨Except.ok pv, Except.ok di, Except.ok (JsVal.arr devs),
        [Except.ok (JsVal.arr [JsVal.obj rfields])],
        [Except.ok (JsVal.arr refItems)]⟩ : CMEnv)
      declaration st store).1.currentConfig =
      some (JsVal.obj [("parsed", JsVal.bool true),
        ("Common", JsVal.obj [(C, JsVal.obj [(nm,
          JsVal.obj (setField gs "foo"
            (JsVal.arr (refItems.map (mapReferenceItem refProps)))))])])]) := by
    simp [configManagerGet, htok, collectItemReads, hacc, collectRefReads,
      hsplice, commitStage, Except.map]
  have hrun2 : (configManagerGet radius
      [⟨pathStr, some C, some ps, [("fooReference", refProps)],
        false, false, none, none, none⟩]
      (⟨Except.ok pv, Except.ok di, Except.ok (JsVal.arr devs),
        [Except.ok (JsVal.arr [JsVal.obj rfields])],
        [Except.ok (JsVal.arr refItems)]⟩ : CMEnv)
      declaration st store).2.2 = Except.ok () := by
    simp [configManagerGet, htok, collectItemReads, hacc, collectRefReads,
      hsplice, commitStage, Except.map]
  refine ⟨hrun2, ⟨JsVal.obj (setField gs "foo"
    (JsVal.arr (refItems.map (mapReferenceItem refProps)))), ?_, ?_, ?_⟩⟩
  · rw [hrun1]
    simp [JsVal.getPath, JsVal.get, lookupField, Option.getD]
  · exact lookupField_setField_self _ _ _
  · have hne : ¬ ("fooReference" = "foo") := by decide
    show lookupField (setField gs "foo"
      (JsVal.arr (refItems.map (mapReferenceItem refProps)))) "fooReference" = none
    rw [lookupField_setField_ne _ _ _ _ hne]
    exact hgl

/-- C9 witness: a concrete VLAN descriptor with a tagged truth property in
its reference list, one raw instance carrying fooReference.link, and one
fetched reference entry. -/
theorem c9_reference_splice_witness :
    ((configManagerGet (⟨"zzqq", "zzqq1", "zzqq2"⟩ : RadiusNames)
        [⟨"/tm/net/vlan", some "VLAN", some [],
          [("fooReference", [⟨"tagged", none, some (JsVal.str "true"), none,
            false, none, none⟩])],
          false, false, none, none, none⟩]
        (⟨Except.ok (JsVal.arr []), Except.ok ⟨"m1", "host1"⟩,
          Except.ok (JsVal.arr [JsVal.obj [("hostname", JsVal.str "host1"),
            ("name", JsVal.str "dev1")]]),
          [Except.ok (JsVal.arr [JsVal.obj [("name", JsVal.str "vlan1"),
            ("tag", JsVal.num 100),
            ("fooReference", JsVal.obj [("link", JsVal.str "https://x/y")])]])],
          [Except.ok (JsVal.arr [JsVal.obj [("name", JsVal.str "1.1"),
            ("tagged", JsVal.str "true"), ("kind", JsVal.str "k")]])]⟩ : CMEnv)
        (JsVal.obj []) ⟨none, none⟩ []).2.2 = Except.ok ()) ∧
    ∃ inst : JsVal,
      (((configManagerGet (⟨"zzqq", "zzqq1", "zzqq2"⟩ : RadiusNames)
          [⟨"/tm/net/vlan", some "VLAN", some [],
            [("fooReference", [⟨"tagged", none, some (JsVal.str "true"), none,
              false, none, none⟩])],
            false, false, none, none, none⟩]
          (⟨Except.ok (JsVal.arr []), Except.ok ⟨"m1", "host1"⟩,
            Except.ok (JsVal.arr [JsVal.obj [("hostname", JsVal.str "host1"),
              ("name", JsVal.str "dev1")]]),
            [Except.ok (JsVal.arr [JsVal.obj [("name", JsVal.str "vlan1"),
              ("tag", JsVal.num 100),
              ("fooReference", JsVal.obj [("link", JsVal.str "https://x/y")])]])],
            [Except.ok (JsVal.arr [JsVal.obj [("name", JsVal.str "1.1"),
              ("tagged", JsVal.str "true"), ("kind", JsVal.str "k")]])]⟩ : CMEnv)
          (JsVal.obj []) ⟨none, none⟩ []).1.currentConfig.getD JsVal.undef).getPath
            ["Common", "VLAN", "vlan1"] = some inst) ∧
      inst.get "foo" = some (JsVal.arr
        ([JsVal.obj [("name", JsVal.str "1.1"), ("tagged", JsVal.str "true"),
          ("kind", JsVal.str "k")]].map
          (mapReferenceItem [⟨"tagged", none, some (JsVal.str "true"), none,
            false, none, none⟩]))) ∧
      inst.get "fooReference" = none :=
  c9_reference_splice (⟨"zzqq", "zzqq1", "zzqq2"⟩ : RadiusNames)
    "/tm/net/vlan" "VLAN" "vlan1" []
    [⟨"tagged", none, some (JsVal.str "true"), none, false, none, none⟩]
    [("name", JsVal.str "vlan1"), ("tag", JsVal.num 100),
      ("fooReference", JsVal.obj [("link", JsVal.str "https://x/y")])]
    (JsVal.obj [("link", JsVal.str "https://x/y")])
    [JsVal.obj [("name", JsVal.str "1.1"), ("tagged", JsVal.str "true"),
      ("kind", JsVal.str "k")]]
    (JsVal.arr []) ⟨"m1", "host1"⟩
    [JsVal.obj [("hostname", JsVal.str "host1"), ("name", JsVal.str "dev1")]]
    (JsVal.obj [("hostname", JsVal.str "host1"), ("name", JsVal.str "dev1")])
    (JsVal.obj []) ⟨none, none⟩ []
    rfl rfl rfl rfl rfl (by decide) rfl
    (by decide) (by decide) (by decide) (by decide)

end F5DO
